import Mathlib

/-!
Verification of the varuint crate: a variable-length integer codec
(SQLite4-style varuint with a 128-bit extension, plus a Protobuf-style
zigzag transform for signed values).

The embedding below is a shallow model of the Rust sources:

* machine integers `uN`/`iN` are modelled as `Nat` bit patterns (`x < 2 ^ N`);
  where Rust arithmetic can wrap, the model takes the result `% 2 ^ N`
  (release-mode wrapping semantics; debug Rust would panic on overflow);
* an `iN` value is represented by its two's-complement bit pattern
  (a `Nat` below `2 ^ N`; the pattern `2 ^ (N-1)` is `iN::MIN`,
  `2 ^ (N-1) - 1` is `iN::MAX`);
* byte sinks accept every offered byte, so a writer is a pure function
  returning the list of bytes it writes (the count returned by
  `write_varint` is the length of that list);
* byte sources are lists of bytes; `read_exact` consumes a prefix of the
  list or fails with `UnexpectedEof`;
* `ptr::copy_nonoverlapping` of the low bytes of an integer is modelled as
  the little-endian byte expansion (the crate targets little-endian
  layouts; its doc-tests and the `write_value_*` helpers assume it);
* a `Result` is modelled by `RRes`: success carries the value and the
  unconsumed tail of the source; `unreachable!()` (a panic, not an
  `io::Error`) is modelled by the distinguished outcome `RRes.unreach`.
-/

/-- Error taxonomy of the spec: a short read (`UnexpectedEof`) or a
width-ceiling violation (`InvalidEncoding`).  The code itself only ever
produces `unexpectedEof`; `invalidEncoding` exists in the model so that
claims about it can be stated and settled. -/
inductive IoErr where
  | unexpectedEof : IoErr
  | invalidEncoding : IoErr
deriving DecidableEq, Repr

/-- Outcome of a `read_varint`/`deserialize` call: a decoded value with the
unconsumed rest of the input, an `io::Error`, or a panic via the
`unreachable!()` macro. -/
inductive RRes where
  | ok : Nat → List Nat → RRes
  | err : IoErr → RRes
  | unreach : RRes
deriving DecidableEq, Repr

/-! ## Length-class calculators (`VarintSizeHint` impls, read_write.rs 10-96) -/

/-- `impl VarintSizeHint for u8` (read_write.rs 10-18). -/
def varint_size_u8 (v : Nat) : Nat :=
  if v ≤ 240 then 1 else 2

/-- `impl VarintSizeHint for u16` (read_write.rs 20-30). -/
def varint_size_u16 (v : Nat) : Nat :=
  if v ≤ 240 then 1 else if v ≤ 2031 then 2 else 3

/-- `impl VarintSizeHint for u32` (read_write.rs 32-46). -/
def varint_size_u32 (v : Nat) : Nat :=
  if v ≤ 240 then 1 else if v ≤ 2031 then 2 else if v ≤ 67567 then 3
  else if v ≤ 16777215 then 4 else 5

/-- `impl VarintSizeHint for u64` (read_write.rs 48-70). -/
def varint_size_u64 (v : Nat) : Nat :=
  if v ≤ 240 then 1 else if v ≤ 2031 then 2 else if v ≤ 67567 then 3
  else if v ≤ 16777215 then 4 else if v ≤ 4294967295 then 5
  else if v ≤ 1099511627775 then 6 else if v ≤ 281474976710655 then 7
  else if v ≤ 72057594037927935 then 8 else 9

/-- `impl VarintSizeHint for u128` (read_write.rs 72-96). -/
def varint_size_u128 (v : Nat) : Nat :=
  if v ≤ 240 then 1 else if v ≤ 2031 then 2 else if v ≤ 67567 then 3
  else if v ≤ 16777215 then 4 else if v ≤ 4294967295 then 5
  else if v ≤ 1099511627775 then 6 else if v ≤ 281474976710655 then 7
  else if v ≤ 72057594037927935 then 8
  else if v ≤ 18446744073709551615 then 9 else 17

/-! ## Zigzag transforms (read_write.rs 526-574), on two's-complement bit
patterns.  For `v : iN` with pattern `x`:
`v << 1` has pattern `(2 * x) % 2 ^ N`; the arithmetic shift `v >> (N-1)`
has pattern `2 ^ N - 1` when `v` is negative (`x ≥ 2 ^ (N-1)`) and `0`
otherwise; `v >> 1` on `uN` is `x / 2`; `-((v & 1) as iN)` has pattern
`2 ^ N - 1` when the low bit is set and `0` otherwise; `^` is `Nat.xor`
on patterns and the `as uN` / `as iN` casts are pattern-identities. -/

/-- `fn varint_to_varuint_8` (read_write.rs 527-529): `((v << 1) ^ (v >> 7)) as u8`. -/
def varint_to_varuint_8 (x : Nat) : Nat :=
  ((2 * x) % 256) ^^^ (if 128 ≤ x then 255 else 0)

/-- `fn varuint_to_varint_8` (read_write.rs 532-534): `((v >> 1) as i8) ^ -((v & 1) as i8)`. -/
def varuint_to_varint_8 (x : Nat) : Nat :=
  (x / 2) ^^^ (if x % 2 = 1 then 255 else 0)

/-- `fn varint_to_varuint_16` (read_write.rs 537-539). -/
def varint_to_varuint_16 (x : Nat) : Nat :=
  ((2 * x) % 65536) ^^^ (if 32768 ≤ x then 65535 else 0)

/-- `fn varuint_to_varint_16` (read_write.rs 542-544). -/
def varuint_to_varint_16 (x : Nat) : Nat :=
  (x / 2) ^^^ (if x % 2 = 1 then 65535 else 0)

/-- `fn varint_to_varuint_32` (read_write.rs 547-549). -/
def varint_to_varuint_32 (x : Nat) : Nat :=
  ((2 * x) % 4294967296) ^^^ (if 2147483648 ≤ x then 4294967295 else 0)

/-- `fn varuint_to_varint_32` (read_write.rs 552-554). -/
def varuint_to_varint_32 (x : Nat) : Nat :=
  (x / 2) ^^^ (if x % 2 = 1 then 4294967295 else 0)

/-- `fn varint_to_varuint_64` (read_write.rs 557-559). -/
def varint_to_varuint_64 (x : Nat) : Nat :=
  ((2 * x) % 18446744073709551616) ^^^
    (if 9223372036854775808 ≤ x then 18446744073709551615 else 0)

/-- `fn varuint_to_varint_64` (read_write.rs 562-564). -/
def varuint_to_varint_64 (x : Nat) : Nat :=
  (x / 2) ^^^ (if x % 2 = 1 then 18446744073709551615 else 0)

/-- `fn varint_to_varuint_128` (read_write.rs 567-569). -/
def varint_to_varuint_128 (x : Nat) : Nat :=
  ((2 * x) % 340282366920938463463374607431768211456) ^^^
    (if 170141183460469231731687303715884105728 ≤ x
     then 340282366920938463463374607431768211455 else 0)

/-- `fn varuint_to_varint_128` (read_write.rs 572-574). -/
def varuint_to_varint_128 (x : Nat) : Nat :=
  (x / 2) ^^^ (if x % 2 = 1 then 340282366920938463463374607431768211455 else 0)

/-! ## Signed length-class calculators (read_write.rs 98-126) -/

/-- `impl VarintSizeHint for i8` (read_write.rs 98-102). -/
def varint_size_i8 (x : Nat) : Nat := varint_size_u8 (varint_to_varuint_8 x)

/-- `impl VarintSizeHint for i16` (read_write.rs 104-108). -/
def varint_size_i16 (x : Nat) : Nat := varint_size_u16 (varint_to_varuint_16 x)

/-- `impl VarintSizeHint for i32` (read_write.rs 110-114). -/
def varint_size_i32 (x : Nat) : Nat := varint_size_u32 (varint_to_varuint_32 x)

/-- `impl VarintSizeHint for i64` (read_write.rs 116-120). -/
def varint_size_i64 (x : Nat) : Nat := varint_size_u64 (varint_to_varuint_64 x)

/-- `impl VarintSizeHint for i128` (read_write.rs 122-126). -/
def varint_size_i128 (x : Nat) : Nat := varint_size_u128 (varint_to_varuint_128 x)

/-! ## Little-endian payload helpers -/

/-- `fn write_value_32/64/128` (read_write.rs 576-595), which differ only in
operand type: the loop stores `(v >> (8 * i)) as u8` at index `i` of a
`len`-byte slice.  Also models the `ptr::copy_nonoverlapping` branches, which
copy the low `len` bytes of the value in (little-endian) memory order. -/
def write_value (len v : Nat) : List Nat :=
  (List.range len).map (fun i => (v >>> (8 * i)) % 256)

/-- Loop body of `fn read_value_32/64/128` (read_write.rs 597-622):
`v |= buf[i] << (8 * i)`, accumulating over the slice. -/
def read_value_go (i acc : Nat) : List Nat → Nat
  | [] => acc
  | b :: rest => read_value_go (i + 1) (acc ||| (b <<< (8 * i))) rest

/-- `fn read_value_32/64/128` (read_write.rs 597-622), which differ only in
operand type.  Also models the `ptr::copy_nonoverlapping` reads of 4/8/16
little-endian bytes. -/
def read_value (buf : List Nat) : Nat := read_value_go 0 0 buf

/-! ## Writers (`WriteVarint` impls, read_write.rs 128-332).  Each returns the
byte slice passed to `sink.write`; the `_ => unreachable!()` arms are dead
because the matching `varint_size` only returns the listed classes, and are
modelled by `[]`. -/

/-- `impl WriteVarint<u8>` (read_write.rs 132-146). -/
def write_varint_u8 (v : Nat) : List Nat :=
  match varint_size_u8 v with
  | 1 => [v]
  | 2 => [241, v - 240]
  | _ => []

/-- `impl WriteVarint<u16>` (read_write.rs 148-167). -/
def write_varint_u16 (v : Nat) : List Nat :=
  match varint_size_u16 v with
  | 1 => [v % 256]
  | 2 => [((v - 240) / 256 + 241) % 256, (v - 240) % 256]
  | 3 => [248, ((v - 2032) / 256) % 256, (v - 2032) % 256]
  | _ => []

/-- `impl WriteVarint<u32>` (read_write.rs 169-198). -/
def write_varint_u32 (v : Nat) : List Nat :=
  match varint_size_u32 v with
  | 1 => [v % 256]
  | 2 => [((v - 240) / 256 + 241) % 256, (v - 240) % 256]
  | 3 => [248, ((v - 2032) / 256) % 256, (v - 2032) % 256]
  | 4 => 249 :: write_value 3 v
  | 5 => 250 :: write_value 4 v
  | _ => []

/-- `impl WriteVarint<u64>` (read_write.rs 200-247). -/
def write_varint_u64 (v : Nat) : List Nat :=
  match varint_size_u64 v with
  | 1 => [v % 256]
  | 2 => [((v - 240) / 256 + 241) % 256, (v - 240) % 256]
  | 3 => [248, ((v - 2032) / 256) % 256, (v - 2032) % 256]
  | 4 => 249 :: write_value 3 v
  | 5 => 250 :: write_value 4 v
  | 6 => 251 :: write_value 5 v
  | 7 => 252 :: write_value 6 v
  | 8 => 253 :: write_value 7 v
  | 9 => 254 :: write_value 8 v
  | _ => []

/-- `impl WriteVarint<u128>` (read_write.rs 249-302). -/
def write_varint_u128 (v : Nat) : List Nat :=
  match varint_size_u128 v with
  | 1 => [v % 256]
  | 2 => [((v - 240) / 256 + 241) % 256, (v - 240) % 256]
  | 3 => [248, ((v - 2032) / 256) % 256, (v - 2032) % 256]
  | 4 => 249 :: write_value 3 v
  | 5 => 250 :: write_value 4 v
  | 6 => 251 :: write_value 5 v
  | 7 => 252 :: write_value 6 v
  | 8 => 253 :: write_value 7 v
  | 9 => 254 :: write_value 8 v
  | 17 => 255 :: write_value 16 v
  | _ => []

/-- `impl WriteVarint<i8>` (read_write.rs 304-308): zigzag then delegate. -/
def write_varint_i8 (x : Nat) : List Nat := write_varint_u8 (varint_to_varuint_8 x)

/-- `impl WriteVarint<i16>` (read_write.rs 310-314). -/
def write_varint_i16 (x : Nat) : List Nat := write_varint_u16 (varint_to_varuint_16 x)

/-- `impl WriteVarint<i32>` (read_write.rs 316-320). -/
def write_varint_i32 (x : Nat) : List Nat := write_varint_u32 (varint_to_varuint_32 x)

/-- `impl WriteVarint<i64>` (read_write.rs 322-326). -/
def write_varint_i64 (x : Nat) : List Nat := write_varint_u64 (varint_to_varuint_64 x)

/-- `impl WriteVarint<i128>` (read_write.rs 328-332). -/
def write_varint_i128 (x : Nat) : List Nat := write_varint_u128 (varint_to_varuint_128 x)

/-! ## Readers (`ReadVarint` impls, read_write.rs 334-524).  Each reads one
prefix byte, returns immediately for `0..=240`, otherwise determines the
total `length` from the prefix (`none` models the `_ => unreachable!()`
arm of the length match), reads `length - 1` payload bytes with
`read_exact`, and reconstructs the value in `uW` arithmetic. -/

/-- `impl ReadVarint<u8>` (read_write.rs 338-353). -/
def read_varint_u8 (input : List Nat) : RRes :=
  match input with
  | [] => .err .unexpectedEof
  | b0 :: rest =>
    if b0 ≤ 240 then .ok b0 rest
    else
      match (if b0 ≤ 247 then some 2 else none : Option Nat) with
      | none => .unreach
      | some length =>
        if rest.length < length - 1 then .err .unexpectedEof
        else
          let payload := rest.take (length - 1)
          .ok ((240 + payload.getD 0 0) % 256) (rest.drop (length - 1))

/-- `impl ReadVarint<u16>` (read_write.rs 355-372). -/
def read_varint_u16 (input : List Nat) : RRes :=
  match input with
  | [] => .err .unexpectedEof
  | b0 :: rest =>
    if b0 ≤ 240 then .ok b0 rest
    else
      match (if b0 ≤ 247 then some 2 else if b0 = 248 then some 3 else none :
             Option Nat) with
      | none => .unreach
      | some length =>
        if rest.length < length - 1 then .err .unexpectedEof
        else
          let payload := rest.take (length - 1)
          let v :=
            match length with
            | 2 => 240 + 256 * (b0 - 241) + payload.getD 0 0
            | 3 => 2032 + 256 * payload.getD 0 0 + payload.getD 1 0
            | _ => 0
          .ok (v % 65536) (rest.drop (length - 1))

/-- `impl ReadVarint<u32>` (read_write.rs 374-401). -/
def read_varint_u32 (input : List Nat) : RRes :=
  match input with
  | [] => .err .unexpectedEof
  | b0 :: rest =>
    if b0 ≤ 240 then .ok b0 rest
    else
      match (if b0 ≤ 247 then some 2 else if b0 = 248 then some 3
             else if b0 = 249 then some 4 else if b0 = 250 then some 5
             else none : Option Nat) with
      | none => .unreach
      | some length =>
        if rest.length < length - 1 then .err .unexpectedEof
        else
          let payload := rest.take (length - 1)
          let v :=
            match length with
            | 2 => 240 + 256 * (b0 - 241) + payload.getD 0 0
            | 3 => 2032 + 256 * payload.getD 0 0 + payload.getD 1 0
            | 4 => read_value (payload.take 3)
            | 5 => read_value (payload.take 4)
            | _ => 0
          .ok (v % 4294967296) (rest.drop (length - 1))

/-- `impl ReadVarint<u64>` (read_write.rs 403-444). -/
def read_varint_u64 (input : List Nat) : RRes :=
  match input with
  | [] => .err .unexpectedEof
  | b0 :: rest =>
    if b0 ≤ 240 then .ok b0 rest
    else
      match (if b0 ≤ 247 then some 2 else if b0 = 248 then some 3
             else if b0 = 249 then some 4 else if b0 = 250 then some 5
             else if b0 = 251 then some 6 else if b0 = 252 then some 7
             else if b0 = 253 then some 8 else if b0 = 254 then some 9
             else none : Option Nat) with
      | none => .unreach
      | some length =>
        if rest.length < length - 1 then .err .unexpectedEof
        else
          let payload := rest.take (length - 1)
          let v :=
            match length with
            | 2 => 240 + 256 * (b0 - 241) + payload.getD 0 0
            | 3 => 2032 + 256 * payload.getD 0 0 + payload.getD 1 0
            | 4 => read_value (payload.take 3)
            | 5 => read_value (payload.take 4)
            | 6 => read_value (payload.take 5)
            | 7 => read_value (payload.take 6)
            | 8 => read_value (payload.take 7)
            | 9 => read_value (payload.take 8)
            | _ => 0
          .ok (v % 18446744073709551616) (rest.drop (length - 1))

/-- `impl ReadVarint<u128>` (read_write.rs 446-494).  Here the length match
on the prefix byte is exhaustive (`255 => 17`), so no `unreach` outcome. -/
def read_varint_u128 (input : List Nat) : RRes :=
  match input with
  | [] => .err .unexpectedEof
  | b0 :: rest =>
    if b0 ≤ 240 then .ok b0 rest
    else
      let length : Nat :=
        if b0 ≤ 247 then 2 else if b0 = 248 then 3
        else if b0 = 249 then 4 else if b0 = 250 then 5
        else if b0 = 251 then 6 else if b0 = 252 then 7
        else if b0 = 253 then 8 else if b0 = 254 then 9 else 17
      if rest.length < length - 1 then .err .unexpectedEof
      else
        let payload := rest.take (length - 1)
        let v :=
          match length with
          | 2 => 240 + 256 * (b0 - 241) + payload.getD 0 0
          | 3 => 2032 + 256 * payload.getD 0 0 + payload.getD 1 0
          | 4 => read_value (payload.take 3)
          | 5 => read_value (payload.take 4)
          | 6 => read_value (payload.take 5)
          | 7 => read_value (payload.take 6)
          | 8 => read_value (payload.take 7)
          | 9 => read_value (payload.take 8)
          | _ => read_value (payload.take 16)
        .ok (v % 340282366920938463463374607431768211456) (rest.drop (length - 1))

/-- `impl ReadVarint<i8>` (read_write.rs 496-500): delegate, then unzigzag. -/
def read_varint_i8 (input : List Nat) : RRes :=
  match read_varint_u8 input with
  | .ok v rest => .ok (varuint_to_varint_8 v) rest
  | r => r

/-- `impl ReadVarint<i16>` (read_write.rs 502-506). -/
def read_varint_i16 (input : List Nat) : RRes :=
  match read_varint_u16 input with
  | .ok v rest => .ok (varuint_to_varint_16 v) rest
  | r => r

/-- `impl ReadVarint<i32>` (read_write.rs 508-512). -/
def read_varint_i32 (input : List Nat) : RRes :=
  match read_varint_u32 input with
  | .ok v rest => .ok (varuint_to_varint_32 v) rest
  | r => r

/-- `impl ReadVarint<i64>` (read_write.rs 514-518). -/
def read_varint_i64 (input : List Nat) : RRes :=
  match read_varint_u64 input with
  | .ok v rest => .ok (varuint_to_varint_64 v) rest
  | r => r

/-- `impl ReadVarint<i128>` (read_write.rs 520-524). -/
def read_varint_i128 (input : List Nat) : RRes :=
  match read_varint_u128 input with
  | .ok v rest => .ok (varuint_to_varint_128 v) rest
  | r => r

/-! ## Legacy 128-bit implementation (varuint.rs), embedded separately from
the trait-based one so their equivalence (claim C10) is a real statement. -/

/-- `Serializable::size_hint for Varuint` (varuint.rs 253-276). -/
def Varuint_size_hint (v : Nat) : Nat :=
  if v ≤ 240 then 1 else if v ≤ 2031 then 2 else if v ≤ 67567 then 3
  else if v ≤ 16777215 then 4 else if v ≤ 4294967295 then 5
  else if v ≤ 1099511627775 then 6 else if v ≤ 281474976710655 then 7
  else if v ≤ 72057594037927935 then 8
  else if v ≤ 18446744073709551615 then 9 else 17

/-- `fn write_value` (varuint.rs 140-145): `buf[i] = (v >> (8*i)) as u8`
for `i in 0..size`. -/
def Varuint_write_value (size v : Nat) : List Nat :=
  (List.range size).map (fun i => (v >>> (8 * i)) % 256)

/-- `Varuint::serialize_buf` (varuint.rs 148-193); returns the `size` bytes
written.  The `ptr::copy_nonoverlapping` arms (classes 5, 9, 17) copy the
low 4/8/16 bytes of the value in little-endian memory order. -/
def Varuint_serialize_buf (v : Nat) : List Nat :=
  match Varuint_size_hint v with
  | 1 => [v % 256]
  | 2 => [((v - 240) / 256 + 241) % 256, (v - 240) % 256]
  | 3 => [248, ((v - 2032) / 256) % 256, (v - 2032) % 256]
  | 4 => 249 :: Varuint_write_value 3 v
  | 5 => 250 :: Varuint_write_value 4 v
  | 6 => 251 :: Varuint_write_value 5 v
  | 7 => 252 :: Varuint_write_value 6 v
  | 8 => 253 :: Varuint_write_value 7 v
  | 9 => 254 :: Varuint_write_value 8 v
  | 17 => 255 :: Varuint_write_value 16 v
  | _ => []

/-- Loop body of `fn read_value` (varuint.rs 196-203). -/
def Varuint_read_value_go (i acc : Nat) : List Nat → Nat
  | [] => acc
  | b :: rest => Varuint_read_value_go (i + 1) (acc ||| (b <<< (8 * i))) rest

/-- `fn read_value` (varuint.rs 196-203). -/
def Varuint_read_value (buf : List Nat) : Nat := Varuint_read_value_go 0 0 buf

/-- `Deserializable for Varuint` (varuint.rs 205-249).  The prefix match is
exhaustive up to 255; the trailing `_ => unreachable!()` arms are dead for
byte inputs and are modelled by `unreach` / `0` exactly as in the
trait-based reader. -/
def Varuint_deserialize (input : List Nat) : RRes :=
  match input with
  | [] => .err .unexpectedEof
  | b0 :: rest =>
    if b0 ≤ 240 then .ok b0 rest
    else
      let length : Nat :=
        if b0 ≤ 247 then 2 else if b0 = 248 then 3
        else if b0 = 249 then 4 else if b0 = 250 then 5
        else if b0 = 251 then 6 else if b0 = 252 then 7
        else if b0 = 253 then 8 else if b0 = 254 then 9 else 17
      if rest.length < length - 1 then .err .unexpectedEof
      else
        let payload := rest.take (length - 1)
        let v :=
          match length with
          | 2 => 240 + 256 * (b0 - 241) + payload.getD 0 0
          | 3 => 2032 + 256 * payload.getD 0 0 + payload.getD 1 0
          | 4 => Varuint_read_value (payload.take 3)
          | 5 => Varuint_read_value (payload.take 4)
          | 6 => Varuint_read_value (payload.take 5)
          | 7 => Varuint_read_value (payload.take 6)
          | 8 => Varuint_read_value (payload.take 7)
          | 9 => Varuint_read_value (payload.take 8)
          | _ => Varuint_read_value (payload.take 16)
        .ok (v % 340282366920938463463374607431768211456) (rest.drop (length - 1))

/-- Value of a little-endian byte list (proof-side helper). -/
def levalue : List Nat → Nat
  | [] => 0
  | b :: rest => b + 256 * levalue rest

/-- Generic zigzag on `(N+1)`-bit patterns (proof-side form of the
`varint_to_varuint_*` family). -/
def zzg (N x : Nat) : Nat :=
  ((2 * x) % 2 ^ (N + 1)) ^^^ (if 2 ^ N ≤ x then 2 ^ (N + 1) - 1 else 0)

/-- Generic inverse zigzag on `(N+1)`-bit patterns (proof-side form of the
`varuint_to_varint_*` family). -/
def uzzg (N u : Nat) : Nat :=
  (u / 2) ^^^ (if u % 2 = 1 then 2 ^ (N + 1) - 1 else 0)

/-! ## Bit-arithmetic helper lemmas -/

/-- Bitwise xor distributes over the binary digit decomposition. -/
theorem xor_two_mul_add (a b i j : Nat) (hi : i < 2) (hj : j < 2) :
    (2 * a + i) ^^^ (2 * b + j) = 2 * (a ^^^ b) + (i ^^^ j) := by
  have hij : i ^^^ j < 2 := by interval_cases i <;> interval_cases j <;> decide
  apply Nat.eq_of_testBit_eq
  intro k
  cases k with
  | zero =>
    rw [Nat.testBit_xor, Nat.testBit_zero, Nat.testBit_zero, Nat.testBit_zero]
    have h1 : (2 * a + i) % 2 = i := by omega
    have h2 : (2 * b + j) % 2 = j := by omega
    have h3 : (2 * (a ^^^ b) + (i ^^^ j)) % 2 = i ^^^ j := by omega
    rw [h1, h2, h3]
    interval_cases i <;> interval_cases j <;> decide
  | succ k =>
    rw [Nat.testBit_xor, Nat.testBit_succ, Nat.testBit_succ, Nat.testBit_succ]
    have h1 : (2 * a + i) / 2 = a := by omega
    have h2 : (2 * b + j) / 2 = b := by omega
    have h3 : (2 * (a ^^^ b) + (i ^^^ j)) / 2 = a ^^^ b := by omega
    rw [h1, h2, h3, Nat.testBit_xor]

/-- Bitwise or distributes over the binary digit decomposition. -/
theorem lor_two_mul_add (a b i j : Nat) (hi : i < 2) (hj : j < 2) :
    (2 * a + i) ||| (2 * b + j) = 2 * (a ||| b) + (i ||| j) := by
  have hij : i ||| j < 2 := by interval_cases i <;> interval_cases j <;> decide
  apply Nat.eq_of_testBit_eq
  intro k
  cases k with
  | zero =>
    rw [Nat.testBit_lor, Nat.testBit_zero, Nat.testBit_zero, Nat.testBit_zero]
    have h1 : (2 * a + i) % 2 = i := by omega
    have h2 : (2 * b + j) % 2 = j := by omega
    have h3 : (2 * (a ||| b) + (i ||| j)) % 2 = i ||| j := by omega
    rw [h1, h2, h3]
    interval_cases i <;> interval_cases j <;> decide
  | succ k =>
    rw [Nat.testBit_lor, Nat.testBit_succ, Nat.testBit_succ, Nat.testBit_succ]
    have h1 : (2 * a + i) / 2 = a := by omega
    have h2 : (2 * b + j) / 2 = b := by omega
    have h3 : (2 * (a ||| b) + (i ||| j)) / 2 = a ||| b := by omega
    rw [h1, h2, h3, Nat.testBit_lor]

/-- Xor with the all-ones mask of `N` bits is complement within `N` bits. -/
theorem xor_mask_of_lt {N y : Nat} (h : y < 2 ^ N) :
    y ^^^ (2 ^ N - 1) = 2 ^ N - 1 - y := by
  induction N generalizing y with
  | zero =>
    have hy : y = 0 := by norm_num at h; omega
    subst hy
    rfl
  | succ N ih =>
    have hy2 : y / 2 < 2 ^ N := by
      have : (2 : Nat) ^ (N + 1) = 2 * 2 ^ N := by ring
      omega
    have hmask : (2 : Nat) ^ (N + 1) - 1 = 2 * (2 ^ N - 1) + 1 := by
      have : (0 : Nat) < 2 ^ N := Nat.pos_pow_of_pos _ (by norm_num)
      have : (2 : Nat) ^ (N + 1) = 2 * 2 ^ N := by ring
      omega
    have hdec : y = 2 * (y / 2) + y % 2 := by omega
    calc y ^^^ (2 ^ (N + 1) - 1)
        = (2 * (y / 2) + y % 2) ^^^ (2 * (2 ^ N - 1) + 1) := by rw [← hdec, ← hmask]
      _ = 2 * ((y / 2) ^^^ (2 ^ N - 1)) + (y % 2 ^^^ 1) := by
          exact xor_two_mul_add _ _ _ _ (by omega) (by omega)
      _ = 2 * (2 ^ N - 1 - y / 2) + (y % 2 ^^^ 1) := by rw [ih hy2]
      _ = 2 ^ (N + 1) - 1 - y := by
          have hb : y % 2 ^^^ 1 = 1 - y % 2 := by
            rcases Nat.mod_two_eq_zero_or_one y with h2 | h2 <;> rw [h2] <;> rfl
          have hp : (0 : Nat) < 2 ^ N := Nat.pos_pow_of_pos _ (by norm_num)
          have he : (2 : Nat) ^ (N + 1) = 2 * 2 ^ N := by ring
          omega

/-- A value below `2 ^ k` or-ed with a shifted-in high part is their sum. -/
theorem lor_shiftLeft_of_lt {a k : Nat} (b : Nat) (h : a < 2 ^ k) :
    a ||| (b <<< k) = a + b * 2 ^ k := by
  induction k generalizing a b with
  | zero =>
    have ha : a = 0 := by norm_num at h; omega
    subst ha
    simp [Nat.shiftLeft_eq]
  | succ k ih =>
    have ha2 : a / 2 < 2 ^ k := by
      have : (2 : Nat) ^ (k + 1) = 2 * 2 ^ k := by ring
      omega
    have hdec : a = 2 * (a / 2) + a % 2 := by omega
    have hsh : b <<< (k + 1) = 2 * (b <<< k) + 0 := by
      rw [Nat.shiftLeft_eq, Nat.shiftLeft_eq, pow_succ]
      ring
    calc a ||| (b <<< (k + 1))
        = (2 * (a / 2) + a % 2) ||| (2 * (b <<< k) + 0) := by rw [← hdec, ← hsh]
      _ = 2 * ((a / 2) ||| (b <<< k)) + (a % 2 ||| 0) := by
          exact lor_two_mul_add _ _ _ _ (by omega) (by omega)
      _ = 2 * (a / 2 + b * 2 ^ k) + a % 2 := by
          rw [ih _ ha2, Nat.or_zero]
      _ = a + b * 2 ^ (k + 1) := by
          have : (2 : Nat) ^ (k + 1) = 2 * 2 ^ k := by ring
          omega

/-! ## Little-endian payload round-trip -/

/-- A payload slice is exactly `len` bytes long. -/
theorem write_value_length (len v : Nat) : (write_value len v).length = len := by
  simp [write_value]

/-- Every byte the payload writer emits is below 256. -/
theorem write_value_mem_lt (len v : Nat) : ∀ b ∈ write_value len v, b < 256 := by
  intro b hb
  simp only [write_value, List.mem_map] at hb
  obtain ⟨i, _, rfl⟩ := hb
  exact Nat.mod_lt _ (by norm_num)

/-- Peeling one byte off the little-endian expansion. -/
theorem write_value_succ (len v : Nat) :
    write_value (len + 1) v = (v % 256) :: write_value len (v / 256) := by
  unfold write_value
  rw [List.range_succ_eq_map, List.map_cons, List.map_map]
  have hf : ((fun i => (v >>> (8 * i)) % 256) ∘ Nat.succ) =
      fun i => ((v / 256) >>> (8 * i)) % 256 := by
    funext i
    simp only [Function.comp]
    rw [Nat.succ_eq_add_one, show 8 * (i + 1) = 8 + 8 * i by ring,
      Nat.shiftRight_add]
    norm_num [Nat.shiftRight_eq_div_pow]
  rw [hf]
  norm_num

/-- The little-endian value of the written payload. -/
theorem levalue_write_value (len v : Nat) :
    levalue (write_value len v) = v % 2 ^ (8 * len) := by
  induction len generalizing v with
  | zero => simp [write_value, levalue, Nat.mod_one]
  | succ len ih =>
    rw [write_value_succ, levalue, ih,
      show (2 : Nat) ^ (8 * (len + 1)) = 256 * 2 ^ (8 * len) by ring,
      Nat.mod_mul]

/-- The accumulating read loop computes the little-endian value. -/
theorem read_value_go_spec (buf : List Nat) :
    ∀ i acc, acc < 2 ^ (8 * i) → (∀ b ∈ buf, b < 256) →
      read_value_go i acc buf = acc + levalue buf * 2 ^ (8 * i) := by
  induction buf with
  | nil => intro i acc _ _; simp [read_value_go, levalue]
  | cons b rest ih =>
    intro i acc hacc hlt
    have hb : b < 256 := hlt b (by simp)
    have hrest : ∀ x ∈ rest, x < 256 := fun x hx => hlt x (by simp [hx])
    have hq : (2 : Nat) ^ (8 * (i + 1)) = 256 * 2 ^ (8 * i) := by ring
    have hlor : acc ||| (b <<< (8 * i)) = acc + b * 2 ^ (8 * i) :=
      lor_shiftLeft_of_lt b hacc
    have hacc2 : acc + b * 2 ^ (8 * i) < 2 ^ (8 * (i + 1)) := by
      rw [hq]
      have : b * 2 ^ (8 * i) ≤ 255 * 2 ^ (8 * i) :=
        Nat.mul_le_mul_right _ (by omega)
      omega
    rw [read_value_go, hlor, ih (i + 1) _ hacc2 hrest, levalue, hq]
    ring

/-- Reading back a written little-endian payload recovers the value modulo
its width. -/
theorem read_write_value (len v : Nat) :
    read_value (write_value len v) = v % 2 ^ (8 * len) := by
  rw [read_value, read_value_go_spec _ 0 0 (by norm_num) (write_value_mem_lt len v),
    levalue_write_value]
  norm_num

/-! ## List helpers for slicing the written buffer -/

theorem take_len_append {α : Type} (l1 l2 : List α) {n : Nat} (h : l1.length = n) :
    List.take n (l1 ++ l2) = l1 := by
  subst h
  exact List.take_left _ _

theorem drop_len_append {α : Type} (l1 l2 : List α) {n : Nat} (h : l1.length = n) :
    List.drop n (l1 ++ l2) = l2 := by
  subst h
  exact List.drop_left _ _

theorem take_len_self {α : Type} (l : List α) {n : Nat} (h : l.length = n) :
    List.take n l = l := by
  subst h
  exact List.take_length l

/-! ## Unsigned round-trips -/

/-- u8 round-trip: reading back a written `u8` varint yields the value and
leaves trailing bytes unconsumed. -/
theorem rt_u8 (v : Nat) (hv : v < 256) (rest : List Nat) :
    read_varint_u8 (write_varint_u8 v ++ rest) = .ok v rest := by
  rcases le_or_lt v 240 with h1 | h1
  · have hsize : varint_size_u8 v = 1 := by
      unfold varint_size_u8
      split_ifs <;> omega
    simp [write_varint_u8, hsize, read_varint_u8, h1]
  · have hsize : varint_size_u8 v = 2 := by
      unfold varint_size_u8
      split_ifs <;> omega
    simp [write_varint_u8, hsize, read_varint_u8]
    omega

/-- u16 round-trip. -/
theorem rt_u16 (v : Nat) (hv : v < 65536) (rest : List Nat) :
    read_varint_u16 (write_varint_u16 v ++ rest) = .ok v rest := by
  rcases le_or_lt v 240 with h1 | h1
  · have hsize : varint_size_u16 v = 1 := by
      unfold varint_size_u16
      split_ifs <;> omega
    have hmod : v % 256 = v := by omega
    simp [write_varint_u16, hsize, read_varint_u16, hmod, h1]
  rcases le_or_lt v 2031 with h2 | h2
  · have hsize : varint_size_u16 v = 2 := by
      unfold varint_size_u16
      split_ifs <;> omega
    have hb0 : ((v - 240) / 256 + 241) % 256 = (v - 240) / 256 + 241 := by omega
    have hc1 : ¬ ((v - 240) / 256 + 241 ≤ 240) := by omega
    have hc2 : (v - 240) / 256 + 241 ≤ 247 := by omega
    simp [write_varint_u16, hsize, read_varint_u16, hb0, hc1, hc2]
    omega
  · have hsize : varint_size_u16 v = 3 := by
      unfold varint_size_u16
      split_ifs <;> omega
    simp [write_varint_u16, hsize, read_varint_u16]
    rw [if_neg (by omega : ¬ (rest.length + 1 + 1 < 2))]
    exact congrArg (fun t => RRes.ok t rest) (by omega)

/-- u32 round-trip. -/
theorem rt_u32 (v : Nat) (hv : v < 4294967296) (rest : List Nat) :
    read_varint_u32 (write_varint_u32 v ++ rest) = .ok v rest := by
  rcases le_or_lt v 240 with h1 | h1
  · have hsize : varint_size_u32 v = 1 := by
      unfold varint_size_u32
      split_ifs <;> omega
    have hmod : v % 256 = v := by omega
    simp [write_varint_u32, hsize, read_varint_u32, hmod, h1]
  rcases le_or_lt v 2031 with h2 | h2
  · have hsize : varint_size_u32 v = 2 := by
      unfold varint_size_u32
      split_ifs <;> omega
    have hb0 : ((v - 240) / 256 + 241) % 256 = (v - 240) / 256 + 241 := by omega
    have hc1 : ¬ ((v - 240) / 256 + 241 ≤ 240) := by omega
    have hc2 : (v - 240) / 256 + 241 ≤ 247 := by omega
    simp [write_varint_u32, hsize, read_varint_u32, hb0, hc1, hc2]
    omega
  rcases le_or_lt v 67567 with h3 | h3
  · have hsize : varint_size_u32 v = 3 := by
      unfold varint_size_u32
      split_ifs <;> omega
    simp [write_varint_u32, hsize, read_varint_u32]
    rw [if_neg (by omega : ¬ (rest.length + 1 + 1 < 2))]
    exact congrArg (fun t => RRes.ok t rest) (by omega)
  rcases le_or_lt v 16777215 with h4 | h4
  · have hsize : varint_size_u32 v = 4 := by
      unfold varint_size_u32
      split_ifs <;> omega
    have hlen := write_value_length 3 v
    have hrw := read_write_value 3 v
    simp only [write_varint_u32, hsize, List.cons_append, read_varint_u32]
    norm_num
    rw [hlen, if_neg (by omega : ¬ (3 + rest.length < 3)), take_len_append _ _ hlen,
      drop_len_append _ _ hlen, take_len_self _ hlen, hrw]
    have h2p : (2 : Nat) ^ (8 * 3) = 16777216 := by norm_num
    rw [h2p]
    congr 1
    omega
  · have hsize : varint_size_u32 v = 5 := by
      unfold varint_size_u32
      split_ifs <;> omega
    have hlen := write_value_length 4 v
    have hrw := read_write_value 4 v
    simp only [write_varint_u32, hsize, List.cons_append, read_varint_u32]
    norm_num
    rw [hlen, if_neg (by omega : ¬ (4 + rest.length < 4)), take_len_append _ _ hlen,
      drop_len_append _ _ hlen, take_len_self _ hlen, hrw]
    have h2p : (2 : Nat) ^ (8 * 4) = 4294967296 := by norm_num
    rw [h2p]
    congr 1
    omega

/-- u64 round-trip. -/
theorem rt_u64 (v : Nat) (hv : v < 18446744073709551616) (rest : List Nat) :
    read_varint_u64 (write_varint_u64 v ++ rest) = .ok v rest := by
  rcases le_or_lt v 240 with h1 | h1
  · have hsize : varint_size_u64 v = 1 := by
      unfold varint_size_u64
      split_ifs <;> omega
    have hmod : v % 256 = v := by omega
    simp [write_varint_u64, hsize, read_varint_u64, hmod, h1]
  rcases le_or_lt v 2031 with h2 | h2
  · have hsize : varint_size_u64 v = 2 := by
      unfold varint_size_u64
      split_ifs <;> omega
    have hb0 : ((v - 240) / 256 + 241) % 256 = (v - 240) / 256 + 241 := by omega
    have hc1 : ¬ ((v - 240) / 256 + 241 ≤ 240) := by omega
    have hc2 : (v - 240) / 256 + 241 ≤ 247 := by omega
    simp [write_varint_u64, hsize, read_varint_u64, hb0, hc1, hc2]
    omega
  rcases le_or_lt v 67567 with h3 | h3
  · have hsize : varint_size_u64 v = 3 := by
      unfold varint_size_u64
      split_ifs <;> omega
    simp [write_varint_u64, hsize, read_varint_u64]
    rw [if_neg (by omega : ¬ (rest.length + 1 + 1 < 2))]
    exact congrArg (fun t => RRes.ok t rest) (by omega)
  rcases le_or_lt v 16777215 with h4 | h4
  · have hsize : varint_size_u64 v = 4 := by
      unfold varint_size_u64
      split_ifs <;> omega
    have hlen := write_value_length 3 v
    have hrw := read_write_value 3 v
    simp only [write_varint_u64, hsize, List.cons_append, read_varint_u64]
    norm_num
    rw [hlen, if_neg (by omega : ¬ (3 + rest.length < 3)), take_len_append _ _ hlen,
      drop_len_append _ _ hlen, take_len_self _ hlen, hrw]
    have h2p : (2 : Nat) ^ (8 * 3) = 16777216 := by norm_num
    rw [h2p]
    congr 1
    omega
  rcases le_or_lt v 4294967295 with h5 | h5
  · have hsize : varint_size_u64 v = 5 := by
      unfold varint_size_u64
      split_ifs <;> omega
    have hlen := write_value_length 4 v
    have hrw := read_write_value 4 v
    simp only [write_varint_u64, hsize, List.cons_append, read_varint_u64]
    norm_num
    rw [hlen, if_neg (by omega : ¬ (4 + rest.length < 4)), take_len_append _ _ hlen,
      drop_len_append _ _ hlen, take_len_self _ hlen, hrw]
    have h2p : (2 : Nat) ^ (8 * 4) = 4294967296 := by norm_num
    rw [h2p]
    congr 1
    omega
  rcases le_or_lt v 1099511627775 with h6 | h6
  · have hsize : varint_size_u64 v = 6 := by
      unfold varint_size_u64
      split_ifs <;> omega
    have hlen := write_value_length 5 v
    have hrw := read_write_value 5 v
    simp only [write_varint_u64, hsize, List.cons_append, read_varint_u64]
    norm_num
    rw [hlen, if_neg (by omega : ¬ (5 + rest.length < 5)), take_len_append _ _ hlen,
      drop_len_append _ _ hlen, take_len_self _ hlen, hrw]
    have h2p : (2 : Nat) ^ (8 * 5) = 1099511627776 := by norm_num
    rw [h2p]
    congr 1
    omega
  rcases le_or_lt v 281474976710655 with h7 | h7
  · have hsize : varint_size_u64 v = 7 := by
      unfold varint_size_u64
      split_ifs <;> omega
    have hlen := write_value_length 6 v
    have hrw := read_write_value 6 v
    simp only [write_varint_u64, hsize, List.cons_append, read_varint_u64]
    norm_num
    rw [hlen, if_neg (by omega : ¬ (6 + rest.length < 6)), take_len_append _ _ hlen,
      drop_len_append _ _ hlen, take_len_self _ hlen, hrw]
    have h2p : (2 : Nat) ^ (8 * 6) = 281474976710656 := by norm_num
    rw [h2p]
    congr 1
    omega
  rcases le_or_lt v 72057594037927935 with h8 | h8
  · have hsize : varint_size_u64 v = 8 := by
      unfold varint_size_u64
      split_ifs <;> omega
    have hlen := write_value_length 7 v
    have hrw := read_write_value 7 v
    simp only [write_varint_u64, hsize, List.cons_append, read_varint_u64]
    norm_num
    rw [hlen, if_neg (by omega : ¬ (7 + rest.length < 7)), take_len_append _ _ hlen,
      drop_len_append _ _ hlen, take_len_self _ hlen, hrw]
    have h2p : (2 : Nat) ^ (8 * 7) = 72057594037927936 := by norm_num
    rw [h2p]
    congr 1
    omega
  · have hsize : varint_size_u64 v = 9 := by
      unfold varint_size_u64
      split_ifs <;> omega
    have hlen := write_value_length 8 v
    have hrw := read_write_value 8 v
    simp only [write_varint_u64, hsize, List.cons_append, read_varint_u64]
    norm_num
    rw [hlen, if_neg (by omega : ¬ (8 + rest.length < 8)), take_len_append _ _ hlen,
      drop_len_append _ _ hlen, take_len_self _ hlen, hrw]
    have h2p : (2 : Nat) ^ (8 * 8) = 18446744073709551616 := by norm_num
    rw [h2p]
    congr 1
    omega

set_option maxHeartbeats 1600000 in
/-- u128 round-trip. -/
theorem rt_u128 (v : Nat) (hv : v < 340282366920938463463374607431768211456)
    (rest : List Nat) :
    read_varint_u128 (write_varint_u128 v ++ rest) = .ok v rest := by
  rcases le_or_lt v 240 with h1 | h1
  · have hsize : varint_size_u128 v = 1 := by
      unfold varint_size_u128
      split_ifs <;> omega
    have hmod : v % 256 = v := by omega
    simp [write_varint_u128, hsize, read_varint_u128, hmod, h1]
  rcases le_or_lt v 2031 with h2 | h2
  · have hsize : varint_size_u128 v = 2 := by
      unfold varint_size_u128
      split_ifs <;> omega
    have hb0 : ((v - 240) / 256 + 241) % 256 = (v - 240) / 256 + 241 := by omega
    have hc1 : ¬ ((v - 240) / 256 + 241 ≤ 240) := by omega
    have hc2 : (v - 240) / 256 + 241 ≤ 247 := by omega
    simp [write_varint_u128, hsize, read_varint_u128, hb0, hc1, hc2]
    omega
  rcases le_or_lt v 67567 with h3 | h3
  · have hsize : varint_size_u128 v = 3 := by
      unfold varint_size_u128
      split_ifs <;> omega
    simp [write_varint_u128, hsize, read_varint_u128]
    rw [if_neg (by omega : ¬ (rest.length + 1 + 1 < 2))]
    exact congrArg (fun t => RRes.ok t rest) (by omega)
  rcases le_or_lt v 16777215 with h4 | h4
  · have hsize : varint_size_u128 v = 4 := by
      unfold varint_size_u128
      split_ifs <;> omega
    have hlen := write_value_length 3 v
    have hrw := read_write_value 3 v
    simp only [write_varint_u128, hsize, List.cons_append, read_varint_u128]
    norm_num
    rw [hlen, if_neg (by omega : ¬ (3 + rest.length < 3)), take_len_append _ _ hlen,
      drop_len_append _ _ hlen, take_len_self _ hlen, hrw]
    have h2p : (2 : Nat) ^ (8 * 3) = 16777216 := by norm_num
    rw [h2p]
    congr 1
    omega
  rcases le_or_lt v 4294967295 with h5 | h5
  · have hsize : varint_size_u128 v = 5 := by
      unfold varint_size_u128
      split_ifs <;> omega
    have hlen := write_value_length 4 v
    have hrw := read_write_value 4 v
    simp only [write_varint_u128, hsize, List.cons_append, read_varint_u128]
    norm_num
    rw [hlen, if_neg (by omega : ¬ (4 + rest.length < 4)), take_len_append _ _ hlen,
      drop_len_append _ _ hlen, take_len_self _ hlen, hrw]
    have h2p : (2 : Nat) ^ (8 * 4) = 4294967296 := by norm_num
    rw [h2p]
    congr 1
    omega
  rcases le_or_lt v 1099511627775 with h6 | h6
  · have hsize : varint_size_u128 v = 6 := by
      unfold varint_size_u128
      split_ifs <;> omega
    have hlen := write_value_length 5 v
    have hrw := read_write_value 5 v
    simp only [write_varint_u128, hsize, List.cons_append, read_varint_u128]
    norm_num
    rw [hlen, if_neg (by omega : ¬ (5 + rest.length < 5)), take_len_append _ _ hlen,
      drop_len_append _ _ hlen, take_len_self _ hlen, hrw]
    have h2p : (2 : Nat) ^ (8 * 5) = 1099511627776 := by norm_num
    rw [h2p]
    congr 1
    omega
  rcases le_or_lt v 281474976710655 with h7 | h7
  · have hsize : varint_size_u128 v = 7 := by
      unfold varint_size_u128
      split_ifs <;> omega
    have hlen := write_value_length 6 v
    have hrw := read_write_value 6 v
    simp only [write_varint_u128, hsize, List.cons_append, read_varint_u128]
    norm_num
    rw [hlen, if_neg (by omega : ¬ (6 + rest.length < 6)), take_len_append _ _ hlen,
      drop_len_append _ _ hlen, take_len_self _ hlen, hrw]
    have h2p : (2 : Nat) ^ (8 * 6) = 281474976710656 := by norm_num
    rw [h2p]
    congr 1
    omega
  rcases le_or_lt v 72057594037927935 with h8 | h8
  · have hsize : varint_size_u128 v = 8 := by
      unfold varint_size_u128
      split_ifs <;> omega
    have hlen := write_value_length 7 v
    have hrw := read_write_value 7 v
    simp only [write_varint_u128, hsize, List.cons_append, read_varint_u128]
    norm_num
    rw [hlen, if_neg (by omega : ¬ (7 + rest.length < 7)), take_len_append _ _ hlen,
      drop_len_append _ _ hlen, take_len_self _ hlen, hrw]
    have h2p : (2 : Nat) ^ (8 * 7) = 72057594037927936 := by norm_num
    rw [h2p]
    congr 1
    omega
  rcases le_or_lt v 18446744073709551615 with h9 | h9
  · have hsize : varint_size_u128 v = 9 := by
      unfold varint_size_u128
      split_ifs <;> omega
    have hlen := write_value_length 8 v
    have hrw := read_write_value 8 v
    simp only [write_varint_u128, hsize, List.cons_append, read_varint_u128]
    norm_num
    rw [hlen, if_neg (by omega : ¬ (8 + rest.length < 8)), take_len_append _ _ hlen,
      drop_len_append _ _ hlen, take_len_self _ hlen, hrw]
    have h2p : (2 : Nat) ^ (8 * 8) = 18446744073709551616 := by norm_num
    rw [h2p]
    congr 1
    omega
  · have hsize : varint_size_u128 v = 17 := by
      unfold varint_size_u128
      split_ifs <;> omega
    have hlen := write_value_length 16 v
    have hrw := read_write_value 16 v
    simp only [write_varint_u128, hsize, List.cons_append, read_varint_u128]
    norm_num
    rw [hlen, if_neg (by omega : ¬ (16 + rest.length < 16)), take_len_append _ _ hlen,
      drop_len_append _ _ hlen, take_len_self _ hlen, hrw]
    have h2p : (2 : Nat) ^ (8 * 16) = 340282366920938463463374607431768211456 := by norm_num
    rw [h2p]
    congr 1
    omega

/-! ## Zigzag: generic form and per-width instances -/

/-- Closed form of the generic zigzag. -/
theorem zzg_eq (N x : Nat) (hx : x < 2 ^ (N + 1)) :
    zzg N x = if 2 ^ N ≤ x then 2 ^ (N + 1) - 1 - (2 * x - 2 ^ (N + 1))
              else 2 * x := by
  have hp : (2 : Nat) ^ (N + 1) = 2 * 2 ^ N := by
    rw [pow_succ]
    ring
  unfold zzg
  by_cases hx2 : 2 ^ N ≤ x
  · rw [if_pos hx2, if_pos hx2]
    have hge : 2 ^ (N + 1) ≤ 2 * x := by omega
    have hlt : 2 * x - 2 ^ (N + 1) < 2 ^ (N + 1) := by omega
    rw [Nat.mod_eq_sub_mod hge, Nat.mod_eq_of_lt hlt, xor_mask_of_lt hlt]
  · rw [if_neg hx2, if_neg hx2, Nat.mod_eq_of_lt (by omega), Nat.xor_zero]

/-- The generic zigzag lands below `2 ^ (N+1)`. -/
theorem zzg_lt (N x : Nat) : zzg N x < 2 ^ (N + 1) := by
  have h1 : (2 * x) % 2 ^ (N + 1) < 2 ^ (N + 1) :=
    Nat.mod_lt _ (Nat.pos_pow_of_pos _ (by norm_num))
  have h2 : (if 2 ^ N ≤ x then 2 ^ (N + 1) - 1 else 0) < 2 ^ (N + 1) := by
    split_ifs
    · have := Nat.pos_pow_of_pos (N + 1) (show 0 < 2 by norm_num)
      omega
    · exact Nat.pos_pow_of_pos _ (by norm_num)
  exact Nat.xor_lt_two_pow h1 h2

/-- The generic inverse zigzag undoes the generic zigzag. -/
theorem uzzg_zzg (N x : Nat) (hx : x < 2 ^ (N + 1)) : uzzg N (zzg N x) = x := by
  have hp : (2 : Nat) ^ (N + 1) = 2 * 2 ^ N := by
    rw [pow_succ]
    ring
  have hpos : (0 : Nat) < 2 ^ N := Nat.pos_pow_of_pos _ (by norm_num)
  rw [zzg_eq N x hx]
  by_cases hx2 : 2 ^ N ≤ x
  · rw [if_pos hx2]
    set u := 2 ^ (N + 1) - 1 - (2 * x - 2 ^ (N + 1)) with hu
    have hodd : u % 2 = 1 := by omega
    have hult : u / 2 < 2 ^ (N + 1) := by omega
    unfold uzzg
    rw [if_pos hodd, xor_mask_of_lt hult]
    omega
  · rw [if_neg hx2]
    have heven : (2 * x) % 2 = 0 := by omega
    unfold uzzg
    rw [if_neg (by omega), Nat.xor_zero]
    omega

/-- `varint_to_varuint_8` is the generic zigzag at `N = 7`. -/
theorem varint_to_varuint_8_eq_zzg (x : Nat) : varint_to_varuint_8 x = zzg 7 x := by
  unfold varint_to_varuint_8 zzg
  norm_num

/-- `varuint_to_varint_8` is the generic inverse zigzag at `N = 7`. -/
theorem varuint_to_varint_8_eq_uzzg (u : Nat) : varuint_to_varint_8 u = uzzg 7 u := by
  unfold varuint_to_varint_8 uzzg
  norm_num

/-- Inverse zigzag undoes zigzag on every i8 bit pattern. -/
theorem uzz_zz_8 (x : Nat) (hx : x < 256) :
    varuint_to_varint_8 (varint_to_varuint_8 x) = x := by
  rw [varint_to_varuint_8_eq_zzg, varuint_to_varint_8_eq_uzzg]
  have hm : (2 : Nat) ^ (7 + 1) = 256 := by norm_num
  exact uzzg_zzg 7 x (by rw [hm]; exact hx)

/-- Zigzag stays inside the u8 range. -/
theorem zz_lt_8 (x : Nat) : varint_to_varuint_8 x < 256 := by
  rw [varint_to_varuint_8_eq_zzg]
  have h := zzg_lt 7 x
  have hm : (2 : Nat) ^ (7 + 1) = 256 := by norm_num
  rw [hm] at h
  exact h

/-- `varint_to_varuint_16` is the generic zigzag at `N = 15`. -/
theorem varint_to_varuint_16_eq_zzg (x : Nat) : varint_to_varuint_16 x = zzg 15 x := by
  unfold varint_to_varuint_16 zzg
  norm_num

/-- `varuint_to_varint_16` is the generic inverse zigzag at `N = 15`. -/
theorem varuint_to_varint_16_eq_uzzg (u : Nat) : varuint_to_varint_16 u = uzzg 15 u := by
  unfold varuint_to_varint_16 uzzg
  norm_num

/-- Inverse zigzag undoes zigzag on every i16 bit pattern. -/
theorem uzz_zz_16 (x : Nat) (hx : x < 65536) :
    varuint_to_varint_16 (varint_to_varuint_16 x) = x := by
  rw [varint_to_varuint_16_eq_zzg, varuint_to_varint_16_eq_uzzg]
  have hm : (2 : Nat) ^ (15 + 1) = 65536 := by norm_num
  exact uzzg_zzg 15 x (by rw [hm]; exact hx)

/-- Zigzag stays inside the u16 range. -/
theorem zz_lt_16 (x : Nat) : varint_to_varuint_16 x < 65536 := by
  rw [varint_to_varuint_16_eq_zzg]
  have h := zzg_lt 15 x
  have hm : (2 : Nat) ^ (15 + 1) = 65536 := by norm_num
  rw [hm] at h
  exact h

/-- `varint_to_varuint_32` is the generic zigzag at `N = 31`. -/
theorem varint_to_varuint_32_eq_zzg (x : Nat) : varint_to_varuint_32 x = zzg 31 x := by
  unfold varint_to_varuint_32 zzg
  norm_num

/-- `varuint_to_varint_32` is the generic inverse zigzag at `N = 31`. -/
theorem varuint_to_varint_32_eq_uzzg (u : Nat) : varuint_to_varint_32 u = uzzg 31 u := by
  unfold varuint_to_varint_32 uzzg
  norm_num

/-- Inverse zigzag undoes zigzag on every i32 bit pattern. -/
theorem uzz_zz_32 (x : Nat) (hx : x < 4294967296) :
    varuint_to_varint_32 (varint_to_varuint_32 x) = x := by
  rw [varint_to_varuint_32_eq_zzg, varuint_to_varint_32_eq_uzzg]
  have hm : (2 : Nat) ^ (31 + 1) = 4294967296 := by norm_num
  exact uzzg_zzg 31 x (by rw [hm]; exact hx)

/-- Zigzag stays inside the u32 range. -/
theorem zz_lt_32 (x : Nat) : varint_to_varuint_32 x < 4294967296 := by
  rw [varint_to_varuint_32_eq_zzg]
  have h := zzg_lt 31 x
  have hm : (2 : Nat) ^ (31 + 1) = 4294967296 := by norm_num
  rw [hm] at h
  exact h

/-- `varint_to_varuint_64` is the generic zigzag at `N = 63`. -/
theorem varint_to_varuint_64_eq_zzg (x : Nat) : varint_to_varuint_64 x = zzg 63 x := by
  unfold varint_to_varuint_64 zzg
  norm_num

/-- `varuint_to_varint_64` is the generic inverse zigzag at `N = 63`. -/
theorem varuint_to_varint_64_eq_uzzg (u : Nat) : varuint_to_varint_64 u = uzzg 63 u := by
  unfold varuint_to_varint_64 uzzg
  norm_num

/-- Inverse zigzag undoes zigzag on every i64 bit pattern. -/
theorem uzz_zz_64 (x : Nat) (hx : x < 18446744073709551616) :
    varuint_to_varint_64 (varint_to_varuint_64 x) = x := by
  rw [varint_to_varuint_64_eq_zzg, varuint_to_varint_64_eq_uzzg]
  have hm : (2 : Nat) ^ (63 + 1) = 18446744073709551616 := by norm_num
  exact uzzg_zzg 63 x (by rw [hm]; exact hx)

/-- Zigzag stays inside the u64 range. -/
theorem zz_lt_64 (x : Nat) : varint_to_varuint_64 x < 18446744073709551616 := by
  rw [varint_to_varuint_64_eq_zzg]
  have h := zzg_lt 63 x
  have hm : (2 : Nat) ^ (63 + 1) = 18446744073709551616 := by norm_num
  rw [hm] at h
  exact h

/-- `varint_to_varuint_128` is the generic zigzag at `N = 127`. -/
theorem varint_to_varuint_128_eq_zzg (x : Nat) : varint_to_varuint_128 x = zzg 127 x := by
  unfold varint_to_varuint_128 zzg
  norm_num

/-- `varuint_to_varint_128` is the generic inverse zigzag at `N = 127`. -/
theorem varuint_to_varint_128_eq_uzzg (u : Nat) : varuint_to_varint_128 u = uzzg 127 u := by
  unfold varuint_to_varint_128 uzzg
  norm_num

/-- Inverse zigzag undoes zigzag on every i128 bit pattern. -/
theorem uzz_zz_128 (x : Nat) (hx : x < 340282366920938463463374607431768211456) :
    varuint_to_varint_128 (varint_to_varuint_128 x) = x := by
  rw [varint_to_varuint_128_eq_zzg, varuint_to_varint_128_eq_uzzg]
  have hm : (2 : Nat) ^ (127 + 1) = 340282366920938463463374607431768211456 := by norm_num
  exact uzzg_zzg 127 x (by rw [hm]; exact hx)

/-- Zigzag stays inside the u128 range. -/
theorem zz_lt_128 (x : Nat) : varint_to_varuint_128 x < 340282366920938463463374607431768211456 := by
  rw [varint_to_varuint_128_eq_zzg]
  have h := zzg_lt 127 x
  have hm : (2 : Nat) ^ (127 + 1) = 340282366920938463463374607431768211456 := by norm_num
  rw [hm] at h
  exact h

/-- The u8 writer emits exactly `varint_size` bytes. -/
theorem wlen_u8 (v : Nat) (hv : v < 256) :
    (write_varint_u8 v).length = varint_size_u8 v := by
  rcases le_or_lt v 240 with h1 | h1
  · have hsize : varint_size_u8 v = 1 := by
      unfold varint_size_u8
      split_ifs <;> omega
    simp [write_varint_u8, hsize]
  · have hsize : varint_size_u8 v = 2 := by
      unfold varint_size_u8
      split_ifs <;> omega
    simp [write_varint_u8, hsize]

/-- The u16 writer emits exactly `varint_size` bytes. -/
theorem wlen_u16 (v : Nat) (hv : v < 65536) :
    (write_varint_u16 v).length = varint_size_u16 v := by
  rcases le_or_lt v 240 with hc1 | hc1
  · have hsize : varint_size_u16 v = 1 := by
      unfold varint_size_u16
      split_ifs <;> omega
    simp [write_varint_u16, hsize]
  rcases le_or_lt v 2031 with hc2 | hc2
  · have hsize : varint_size_u16 v = 2 := by
      unfold varint_size_u16
      split_ifs <;> omega
    simp [write_varint_u16, hsize]
  · have hsize : varint_size_u16 v = 3 := by
      unfold varint_size_u16
      split_ifs <;> omega
    simp [write_varint_u16, hsize]

/-- The u32 writer emits exactly `varint_size` bytes. -/
theorem wlen_u32 (v : Nat) (hv : v < 4294967296) :
    (write_varint_u32 v).length = varint_size_u32 v := by
  rcases le_or_lt v 240 with hc1 | hc1
  · have hsize : varint_size_u32 v = 1 := by
      unfold varint_size_u32
      split_ifs <;> omega
    simp [write_varint_u32, hsize]
  rcases le_or_lt v 2031 with hc2 | hc2
  · have hsize : varint_size_u32 v = 2 := by
      unfold varint_size_u32
      split_ifs <;> omega
    simp [write_varint_u32, hsize]
  rcases le_or_lt v 67567 with hc3 | hc3
  · have hsize : varint_size_u32 v = 3 := by
      unfold varint_size_u32
      split_ifs <;> omega
    simp [write_varint_u32, hsize]
  rcases le_or_lt v 16777215 with hc4 | hc4
  · have hsize : varint_size_u32 v = 4 := by
      unfold varint_size_u32
      split_ifs <;> omega
    simp [write_varint_u32, hsize, write_value_length]
  · have hsize : varint_size_u32 v = 5 := by
      unfold varint_size_u32
      split_ifs <;> omega
    simp [write_varint_u32, hsize, write_value_length]

/-- The u64 writer emits exactly `varint_size` bytes. -/
theorem wlen_u64 (v : Nat) (hv : v < 18446744073709551616) :
    (write_varint_u64 v).length = varint_size_u64 v := by
  rcases le_or_lt v 240 with hc1 | hc1
  · have hsize : varint_size_u64 v = 1 := by
      unfold varint_size_u64
      split_ifs <;> omega
    simp [write_varint_u64, hsize]
  rcases le_or_lt v 2031 with hc2 | hc2
  · have hsize : varint_size_u64 v = 2 := by
      unfold varint_size_u64
      split_ifs <;> omega
    simp [write_varint_u64, hsize]
  rcases le_or_lt v 67567 with hc3 | hc3
  · have hsize : varint_size_u64 v = 3 := by
      unfold varint_size_u64
      split_ifs <;> omega
    simp [write_varint_u64, hsize]
  rcases le_or_lt v 16777215 with hc4 | hc4
  · have hsize : varint_size_u64 v = 4 := by
      unfold varint_size_u64
      split_ifs <;> omega
    simp [write_varint_u64, hsize, write_value_length]
  rcases le_or_lt v 4294967295 with hc5 | hc5
  · have hsize : varint_size_u64 v = 5 := by
      unfold varint_size_u64
      split_ifs <;> omega
    simp [write_varint_u64, hsize, write_value_length]
  rcases le_or_lt v 1099511627775 with hc6 | hc6
  · have hsize : varint_size_u64 v = 6 := by
      unfold varint_size_u64
      split_ifs <;> omega
    simp [write_varint_u64, hsize, write_value_length]
  rcases le_or_lt v 281474976710655 with hc7 | hc7
  · have hsize : varint_size_u64 v = 7 := by
      unfold varint_size_u64
      split_ifs <;> omega
    simp [write_varint_u64, hsize, write_value_length]
  rcases le_or_lt v 72057594037927935 with hc8 | hc8
  · have hsize : varint_size_u64 v = 8 := by
      unfold varint_size_u64
      split_ifs <;> omega
    simp [write_varint_u64, hsize, write_value_length]
  · have hsize : varint_size_u64 v = 9 := by
      unfold varint_size_u64
      split_ifs <;> omega
    simp [write_varint_u64, hsize, write_value_length]

set_option maxHeartbeats 1600000 in
/-- The u128 writer emits exactly `varint_size` bytes. -/
theorem wlen_u128 (v : Nat) (hv : v < 340282366920938463463374607431768211456) :
    (write_varint_u128 v).length = varint_size_u128 v := by
  rcases le_or_lt v 240 with hc1 | hc1
  · have hsize : varint_size_u128 v = 1 := by
      unfold varint_size_u128
      split_ifs <;> omega
    simp [write_varint_u128, hsize]
  rcases le_or_lt v 2031 with hc2 | hc2
  · have hsize : varint_size_u128 v = 2 := by
      unfold varint_size_u128
      split_ifs <;> omega
    simp [write_varint_u128, hsize]
  rcases le_or_lt v 67567 with hc3 | hc3
  · have hsize : varint_size_u128 v = 3 := by
      unfold varint_size_u128
      split_ifs <;> omega
    simp [write_varint_u128, hsize]
  rcases le_or_lt v 16777215 with hc4 | hc4
  · have hsize : varint_size_u128 v = 4 := by
      unfold varint_size_u128
      split_ifs <;> omega
    simp [write_varint_u128, hsize, write_value_length]
  rcases le_or_lt v 4294967295 with hc5 | hc5
  · have hsize : varint_size_u128 v = 5 := by
      unfold varint_size_u128
      split_ifs <;> omega
    simp [write_varint_u128, hsize, write_value_length]
  rcases le_or_lt v 1099511627775 with hc6 | hc6
  · have hsize : varint_size_u128 v = 6 := by
      unfold varint_size_u128
      split_ifs <;> omega
    simp [write_varint_u128, hsize, write_value_length]
  rcases le_or_lt v 281474976710655 with hc7 | hc7
  · have hsize : varint_size_u128 v = 7 := by
      unfold varint_size_u128
      split_ifs <;> omega
    simp [write_varint_u128, hsize, write_value_length]
  rcases le_or_lt v 72057594037927935 with hc8 | hc8
  · have hsize : varint_size_u128 v = 8 := by
      unfold varint_size_u128
      split_ifs <;> omega
    simp [write_varint_u128, hsize, write_value_length]
  rcases le_or_lt v 18446744073709551615 with hc9 | hc9
  · have hsize : varint_size_u128 v = 9 := by
      unfold varint_size_u128
      split_ifs <;> omega
    simp [write_varint_u128, hsize, write_value_length]
  · have hsize : varint_size_u128 v = 17 := by
      unfold varint_size_u128
      split_ifs <;> omega
    simp [write_varint_u128, hsize, write_value_length]

/-! ## Monotonicity and cross-width agreement of the length class -/

set_option maxHeartbeats 1600000 in
/-- u128 length classing is monotone. -/
theorem mono_u128 (a b : Nat) (h : a ≤ b) :
    varint_size_u128 a ≤ varint_size_u128 b := by
  rcases le_or_lt b 240 with hb1 | hb1
  · have h1 : varint_size_u128 b = 1 := by
      unfold varint_size_u128
      split_ifs <;> omega
    have h2 : varint_size_u128 a ≤ 1 := by
      unfold varint_size_u128
      split_ifs <;> omega
    omega
  rcases le_or_lt b 2031 with hb2 | hb2
  · have h1 : varint_size_u128 b = 2 := by
      unfold varint_size_u128
      split_ifs <;> omega
    have h2 : varint_size_u128 a ≤ 2 := by
      unfold varint_size_u128
      split_ifs <;> omega
    omega
  rcases le_or_lt b 67567 with hb3 | hb3
  · have h1 : varint_size_u128 b = 3 := by
      unfold varint_size_u128
      split_ifs <;> omega
    have h2 : varint_size_u128 a ≤ 3 := by
      unfold varint_size_u128
      split_ifs <;> omega
    omega
  rcases le_or_lt b 16777215 with hb4 | hb4
  · have h1 : varint_size_u128 b = 4 := by
      unfold varint_size_u128
      split_ifs <;> omega
    have h2 : varint_size_u128 a ≤ 4 := by
      unfold varint_size_u128
      split_ifs <;> omega
    omega
  rcases le_or_lt b 4294967295 with hb5 | hb5
  · have h1 : varint_size_u128 b = 5 := by
      unfold varint_size_u128
      split_ifs <;> omega
    have h2 : varint_size_u128 a ≤ 5 := by
      unfold varint_size_u128
      split_ifs <;> omega
    omega
  rcases le_or_lt b 1099511627775 with hb6 | hb6
  · have h1 : varint_size_u128 b = 6 := by
      unfold varint_size_u128
      split_ifs <;> omega
    have h2 : varint_size_u128 a ≤ 6 := by
      unfold varint_size_u128
      split_ifs <;> omega
    omega
  rcases le_or_lt b 281474976710655 with hb7 | hb7
  · have h1 : varint_size_u128 b = 7 := by
      unfold varint_size_u128
      split_ifs <;> omega
    have h2 : varint_size_u128 a ≤ 7 := by
      unfold varint_size_u128
      split_ifs <;> omega
    omega
  rcases le_or_lt b 72057594037927935 with hb8 | hb8
  · have h1 : varint_size_u128 b = 8 := by
      unfold varint_size_u128
      split_ifs <;> omega
    have h2 : varint_size_u128 a ≤ 8 := by
      unfold varint_size_u128
      split_ifs <;> omega
    omega
  rcases le_or_lt b 18446744073709551615 with hb9 | hb9
  · have h1 : varint_size_u128 b = 9 := by
      unfold varint_size_u128
      split_ifs <;> omega
    have h2 : varint_size_u128 a ≤ 9 := by
      unfold varint_size_u128
      split_ifs <;> omega
    omega
  · have h1 : varint_size_u128 b = 17 := by
      unfold varint_size_u128
      split_ifs <;> omega
    have h2 : varint_size_u128 a ≤ 17 := by
      unfold varint_size_u128
      split_ifs <;> omega
    omega

/-- u8 length classing is monotone. -/
theorem mono_u8 (a b : Nat) (h : a ≤ b) :
    varint_size_u8 a ≤ varint_size_u8 b := by
  unfold varint_size_u8
  split_ifs <;> omega

/-- u16 length classing is monotone. -/
theorem mono_u16 (a b : Nat) (h : a ≤ b) :
    varint_size_u16 a ≤ varint_size_u16 b := by
  unfold varint_size_u16
  split_ifs <;> omega

/-- u32 length classing is monotone. -/
theorem mono_u32 (a b : Nat) (h : a ≤ b) :
    varint_size_u32 a ≤ varint_size_u32 b := by
  unfold varint_size_u32
  split_ifs <;> omega

set_option maxHeartbeats 800000 in
/-- u64 length classing is monotone. -/
theorem mono_u64 (a b : Nat) (h : a ≤ b) :
    varint_size_u64 a ≤ varint_size_u64 b := by
  rcases le_or_lt b 240 with hb1 | hb1
  · have h1 : varint_size_u64 b = 1 := by
      unfold varint_size_u64
      split_ifs <;> omega
    have h2 : varint_size_u64 a ≤ 1 := by
      unfold varint_size_u64
      split_ifs <;> omega
    omega
  rcases le_or_lt b 2031 with hb2 | hb2
  · have h1 : varint_size_u64 b = 2 := by
      unfold varint_size_u64
      split_ifs <;> omega
    have h2 : varint_size_u64 a ≤ 2 := by
      unfold varint_size_u64
      split_ifs <;> omega
    omega
  rcases le_or_lt b 67567 with hb3 | hb3
  · have h1 : varint_size_u64 b = 3 := by
      unfold varint_size_u64
      split_ifs <;> omega
    have h2 : varint_size_u64 a ≤ 3 := by
      unfold varint_size_u64
      split_ifs <;> omega
    omega
  rcases le_or_lt b 16777215 with hb4 | hb4
  · have h1 : varint_size_u64 b = 4 := by
      unfold varint_size_u64
      split_ifs <;> omega
    have h2 : varint_size_u64 a ≤ 4 := by
      unfold varint_size_u64
      split_ifs <;> omega
    omega
  rcases le_or_lt b 4294967295 with hb5 | hb5
  · have h1 : varint_size_u64 b = 5 := by
      unfold varint_size_u64
      split_ifs <;> omega
    have h2 : varint_size_u64 a ≤ 5 := by
      unfold varint_size_u64
      split_ifs <;> omega
    omega
  rcases le_or_lt b 1099511627775 with hb6 | hb6
  · have h1 : varint_size_u64 b = 6 := by
      unfold varint_size_u64
      split_ifs <;> omega
    have h2 : varint_size_u64 a ≤ 6 := by
      unfold varint_size_u64
      split_ifs <;> omega
    omega
  rcases le_or_lt b 281474976710655 with hb7 | hb7
  · have h1 : varint_size_u64 b = 7 := by
      unfold varint_size_u64
      split_ifs <;> omega
    have h2 : varint_size_u64 a ≤ 7 := by
      unfold varint_size_u64
      split_ifs <;> omega
    omega
  rcases le_or_lt b 72057594037927935 with hb8 | hb8
  · have h1 : varint_size_u64 b = 8 := by
      unfold varint_size_u64
      split_ifs <;> omega
    have h2 : varint_size_u64 a ≤ 8 := by
      unfold varint_size_u64
      split_ifs <;> omega
    omega
  · have h1 : varint_size_u64 b = 9 := by
      unfold varint_size_u64
      split_ifs <;> omega
    have h2 : varint_size_u64 a ≤ 9 := by
      unfold varint_size_u64
      split_ifs <;> omega
    omega

/-- u8 sizes agree with u128 sizes on the shared range. -/
theorem agree_u8 (v : Nat) (hv : v < 256) :
    varint_size_u8 v = varint_size_u128 v := by
  unfold varint_size_u8 varint_size_u128
  split_ifs <;> omega

/-- u16 sizes agree with u128 sizes on the shared range. -/
theorem agree_u16 (v : Nat) (hv : v < 65536) :
    varint_size_u16 v = varint_size_u128 v := by
  unfold varint_size_u16 varint_size_u128
  split_ifs <;> omega

/-- u32 sizes agree with u128 sizes on the shared range. -/
theorem agree_u32 (v : Nat) (hv : v < 4294967296) :
    varint_size_u32 v = varint_size_u128 v := by
  unfold varint_size_u32 varint_size_u128
  split_ifs <;> omega

/-- u64 sizes agree with u128 sizes on the shared range. -/
theorem agree_u64 (v : Nat) (hv : v < 18446744073709551616) :
    varint_size_u64 v = varint_size_u128 v := by
  unfold varint_size_u64 varint_size_u128
  split_ifs <;> omega

/-! ## Equivalence of the legacy varuint.rs implementation with the
trait-based u128 one (read_write.rs) -/

/-- The two size calculators are the same if-chain. -/
theorem Varuint_size_hint_eq (v : Nat) : Varuint_size_hint v = varint_size_u128 v := rfl

/-- The two little-endian writers are the same map. -/
theorem Varuint_write_value_eq : Varuint_write_value = write_value := rfl

/-- The two little-endian read loops coincide. -/
theorem Varuint_read_value_go_eq (buf : List Nat) :
    ∀ i acc, Varuint_read_value_go i acc buf = read_value_go i acc buf := by
  induction buf with
  | nil => intro i acc; rfl
  | cons b rest ih =>
    intro i acc
    rw [Varuint_read_value_go, read_value_go]
    exact ih _ _

/-- The two little-endian readers coincide. -/
theorem Varuint_read_value_eq : Varuint_read_value = read_value := by
  funext buf
  exact Varuint_read_value_go_eq buf 0 0

/-- The legacy serializer produces exactly the trait-based writer's bytes. -/
theorem Varuint_serialize_buf_eq (v : Nat) :
    Varuint_serialize_buf v = write_varint_u128 v := by
  rw [Varuint_serialize_buf, write_varint_u128, Varuint_size_hint_eq,
    Varuint_write_value_eq]

/-- The legacy deserializer and the trait-based reader agree on every input. -/
theorem Varuint_deserialize_eq (input : List Nat) :
    Varuint_deserialize input = read_varint_u128 input := by
  unfold Varuint_deserialize read_varint_u128
  rw [Varuint_read_value_eq]

/-- i8 round-trip (zigzag delegation), on bit patterns. -/
theorem rt_i8 (x : Nat) (hx : x < 256) (rest : List Nat) :
    read_varint_i8 (write_varint_i8 x ++ rest) = .ok x rest := by
  unfold write_varint_i8 read_varint_i8
  rw [rt_u8 _ (zz_lt_8 x) rest]
  simp [uzz_zz_8 x hx]

/-- i16 round-trip (zigzag delegation), on bit patterns. -/
theorem rt_i16 (x : Nat) (hx : x < 65536) (rest : List Nat) :
    read_varint_i16 (write_varint_i16 x ++ rest) = .ok x rest := by
  unfold write_varint_i16 read_varint_i16
  rw [rt_u16 _ (zz_lt_16 x) rest]
  simp [uzz_zz_16 x hx]

/-- i32 round-trip (zigzag delegation), on bit patterns. -/
theorem rt_i32 (x : Nat) (hx : x < 4294967296) (rest : List Nat) :
    read_varint_i32 (write_varint_i32 x ++ rest) = .ok x rest := by
  unfold write_varint_i32 read_varint_i32
  rw [rt_u32 _ (zz_lt_32 x) rest]
  simp [uzz_zz_32 x hx]

/-- i64 round-trip (zigzag delegation), on bit patterns. -/
theorem rt_i64 (x : Nat) (hx : x < 18446744073709551616) (rest : List Nat) :
    read_varint_i64 (write_varint_i64 x ++ rest) = .ok x rest := by
  unfold write_varint_i64 read_varint_i64
  rw [rt_u64 _ (zz_lt_64 x) rest]
  simp [uzz_zz_64 x hx]

/-- i128 round-trip (zigzag delegation), on bit patterns. -/
theorem rt_i128 (x : Nat) (hx : x < 340282366920938463463374607431768211456) (rest : List Nat) :
    read_varint_i128 (write_varint_i128 x ++ rest) = .ok x rest := by
  unfold write_varint_i128 read_varint_i128
  rw [rt_u128 _ (zz_lt_128 x) rest]
  simp [uzz_zz_128 x hx]

/-! ## Prefix rejection: length classes beyond the destination width hit the
`unreachable!()` panic, not an error return -/

/-- The u8 reader panics on any prefix in 248..=255. -/
theorem reject_u8 (p : Nat) (rest : List Nat) (h1 : 248 ≤ p) (h2 : p ≤ 255) :
    read_varint_u8 (p :: rest) = .unreach := by
  have hc1 : ¬ p ≤ 240 := by omega
  have hc2 : ¬ p ≤ 247 := by omega
  simp [read_varint_u8, hc1, hc2]

/-- The u16 reader panics on any prefix in 249..=255. -/
theorem reject_u16 (p : Nat) (rest : List Nat) (h1 : 249 ≤ p) (h2 : p ≤ 255) :
    read_varint_u16 (p :: rest) = .unreach := by
  have hc1 : ¬ p ≤ 240 := by omega
  have hc2 : ¬ p ≤ 247 := by omega
  have hc3 : ¬ p = 248 := by omega
  simp [read_varint_u16, hc1, hc2, hc3]

/-- The u32 reader panics on any prefix in 251..=255. -/
theorem reject_u32 (p : Nat) (rest : List Nat) (h1 : 251 ≤ p) (h2 : p ≤ 255) :
    read_varint_u32 (p :: rest) = .unreach := by
  have hc1 : ¬ p ≤ 240 := by omega
  have hc2 : ¬ p ≤ 247 := by omega
  have hc3 : ¬ p = 248 := by omega
  have hc4 : ¬ p = 249 := by omega
  have hc5 : ¬ p = 250 := by omega
  simp [read_varint_u32, hc1, hc2, hc3, hc4, hc5]

/-- The u64 reader panics on prefix 255. -/
theorem reject_u64 (rest : List Nat) :
    read_varint_u64 (255 :: rest) = .unreach := by
  simp [read_varint_u64]

/-! # Claim theorems -/

/-- C1 (counterexample): the claim says decoding a stream starting with byte
255 into a narrow destination fails with an `InvalidEncoding` decode error.
On the concrete input `[255]` the u8 reader instead hits the
`unreachable!()` panic: it does not return an error value at all (and the
same holds for the other narrow readers). -/
theorem claim_C1_counterexample :
    read_varint_u8 [255] = RRes.unreach ∧
    read_varint_u8 [255] ≠ RRes.err IoErr.invalidEncoding ∧
    read_varint_u16 [255] = RRes.unreach ∧
    read_varint_u32 [255] = RRes.unreach ∧
    read_varint_u64 [255] = RRes.unreach := by
  decide

/-- C1 (amended): decoding a byte stream whose first byte is 255 into an
8-, 16-, 32- or 64-bit destination never succeeds with a truncated value:
the reader panics at its `unreachable!()` branch (rather than returning an
`InvalidEncoding` error), and more generally every prefix byte implying a
length class too large for the destination width is rejected this way
(248..=255 for u8, 249..=255 for u16, 251..=255 for u32, 255 for u64). -/
theorem claim_C1 :
    (∀ p rest, 248 ≤ p → p ≤ 255 → read_varint_u8 (p :: rest) = RRes.unreach) ∧
    (∀ p rest, 249 ≤ p → p ≤ 255 → read_varint_u16 (p :: rest) = RRes.unreach) ∧
    (∀ p rest, 251 ≤ p → p ≤ 255 → read_varint_u32 (p :: rest) = RRes.unreach) ∧
    (∀ rest, read_varint_u64 (255 :: rest) = RRes.unreach) :=
  ⟨fun p rest h1 h2 => reject_u8 p rest h1 h2,
   fun p rest h1 h2 => reject_u16 p rest h1 h2,
   fun p rest h1 h2 => reject_u32 p rest h1 h2,
   fun rest => reject_u64 rest⟩

/-- Witness for C1 at the concrete prefix 255. -/
theorem claim_C1_witness :
    read_varint_u8 [255, 7] = RRes.unreach ∧
    read_varint_u16 [255] = RRes.unreach ∧
    read_varint_u32 [255] = RRes.unreach ∧
    read_varint_u64 [255] = RRes.unreach :=
  ⟨claim_C1.1 255 [7] (by decide) (by decide),
   claim_C1.2.1 255 [] (by decide) (by decide),
   claim_C1.2.2.1 255 [] (by decide) (by decide),
   claim_C1.2.2.2 []⟩

/-- C2: for every supported width and every representable magnitude (bit
pattern, for the signed widths), reading back a written varint returns
exactly the original value and leaves trailing input unconsumed. -/
theorem claim_C2 :
    (∀ v rest, v < 256 →
       read_varint_u8 (write_varint_u8 v ++ rest) = RRes.ok v rest) ∧
    (∀ v rest, v < 65536 →
       read_varint_u16 (write_varint_u16 v ++ rest) = RRes.ok v rest) ∧
    (∀ v rest, v < 4294967296 →
       read_varint_u32 (write_varint_u32 v ++ rest) = RRes.ok v rest) ∧
    (∀ v rest, v < 18446744073709551616 →
       read_varint_u64 (write_varint_u64 v ++ rest) = RRes.ok v rest) ∧
    (∀ v rest, v < 340282366920938463463374607431768211456 →
       read_varint_u128 (write_varint_u128 v ++ rest) = RRes.ok v rest) ∧
    (∀ x rest, x < 256 →
       read_varint_i8 (write_varint_i8 x ++ rest) = RRes.ok x rest) ∧
    (∀ x rest, x < 65536 →
       read_varint_i16 (write_varint_i16 x ++ rest) = RRes.ok x rest) ∧
    (∀ x rest, x < 4294967296 →
       read_varint_i32 (write_varint_i32 x ++ rest) = RRes.ok x rest) ∧
    (∀ x rest, x < 18446744073709551616 →
       read_varint_i64 (write_varint_i64 x ++ rest) = RRes.ok x rest) ∧
    (∀ x rest, x < 340282366920938463463374607431768211456 →
       read_varint_i128 (write_varint_i128 x ++ rest) = RRes.ok x rest) :=
  ⟨fun v rest hv => rt_u8 v hv rest, fun v rest hv => rt_u16 v hv rest,
   fun v rest hv => rt_u32 v hv rest, fun v rest hv => rt_u64 v hv rest,
   fun v rest hv => rt_u128 v hv rest, fun x rest hx => rt_i8 x hx rest,
   fun x rest hx => rt_i16 x hx rest, fun x rest hx => rt_i32 x hx rest,
   fun x rest hx => rt_i64 x hx rest, fun x rest hx => rt_i128 x hx rest⟩

/-- Witness for C2: concrete round-trips, one per width (the i8 input 255 is
the bit pattern of -1). -/
theorem claim_C2_witness :
    read_varint_u8 (write_varint_u8 200 ++ [9]) = RRes.ok 200 [9] ∧
    read_varint_u16 (write_varint_u16 3000 ++ []) = RRes.ok 3000 [] ∧
    read_varint_u32 (write_varint_u32 100000 ++ []) = RRes.ok 100000 [] ∧
    read_varint_u64 (write_varint_u64 5000000000 ++ []) = RRes.ok 5000000000 [] ∧
    read_varint_u128 (write_varint_u128 18446744073709551616 ++ []) =
      RRes.ok 18446744073709551616 [] ∧
    read_varint_i8 (write_varint_i8 255 ++ []) = RRes.ok 255 [] ∧
    read_varint_i128 (write_varint_i128 170141183460469231731687303715884105728
      ++ []) = RRes.ok 170141183460469231731687303715884105728 [] :=
  ⟨claim_C2.1 200 [9] (by decide), claim_C2.2.1 3000 [] (by decide),
   claim_C2.2.2.1 100000 [] (by decide), claim_C2.2.2.2.1 5000000000 [] (by decide),
   claim_C2.2.2.2.2.1 18446744073709551616 [] (by decide),
   claim_C2.2.2.2.2.2.1 255 [] (by decide),
   claim_C2.2.2.2.2.2.2.2.2.2 170141183460469231731687303715884105728 []
     (by decide)⟩

/-- C3 (counterexample): the claim says no two distinct byte sequences
accepted by the decoder decode to the same magnitude.  But the u16 decoder
accepts both `[240]` and the non-canonical `[241, 0]`, consuming each fully,
and decodes both to 240. -/
theorem claim_C3_counterexample :
    read_varint_u16 [240] = RRes.ok 240 [] ∧
    read_varint_u16 [241, 0] = RRes.ok 240 [] ∧
    ([240] : List Nat) ≠ [241, 0] := by
  decide

/-- C3 (amended): the encoder is a function and is injective, so every
magnitude has exactly one encoder-produced encoding and encode/decode form
a bijection between magnitudes and the set of encoder-produced encodings;
the decoder however also accepts non-canonical byte sequences (such as
`[241, 0]`), so distinct decoder-accepted sequences may decode to the same
magnitude. -/
theorem claim_C3 :
    (∀ a b, a < 256 → b < 256 →
       write_varint_u8 a = write_varint_u8 b → a = b) ∧
    (∀ a b, a < 65536 → b < 65536 →
       write_varint_u16 a = write_varint_u16 b → a = b) ∧
    (∀ a b, a < 4294967296 → b < 4294967296 →
       write_varint_u32 a = write_varint_u32 b → a = b) ∧
    (∀ a b, a < 18446744073709551616 → b < 18446744073709551616 →
       write_varint_u64 a = write_varint_u64 b → a = b) ∧
    (∀ a b, a < 340282366920938463463374607431768211456 →
       b < 340282366920938463463374607431768211456 →
       write_varint_u128 a = write_varint_u128 b → a = b) := by
  refine ⟨fun a b ha hb hww => ?_, fun a b ha hb hww => ?_,
    fun a b ha hb hww => ?_, fun a b ha hb hww => ?_, fun a b ha hb hww => ?_⟩
  · have h1 := rt_u8 a ha []
    rw [hww, rt_u8 b hb []] at h1
    injection h1 with hv hr
    exact hv.symm
  · have h1 := rt_u16 a ha []
    rw [hww, rt_u16 b hb []] at h1
    injection h1 with hv hr
    exact hv.symm
  · have h1 := rt_u32 a ha []
    rw [hww, rt_u32 b hb []] at h1
    injection h1 with hv hr
    exact hv.symm
  · have h1 := rt_u64 a ha []
    rw [hww, rt_u64 b hb []] at h1
    injection h1 with hv hr
    exact hv.symm
  · have h1 := rt_u128 a ha []
    rw [hww, rt_u128 b hb []] at h1
    injection h1 with hv hr
    exact hv.symm

/-- Witness for C3 at a concrete pair. -/
theorem claim_C3_witness :
    (999 : Nat) < 65536 ∧ write_varint_u16 999 = write_varint_u16 999 ∧
    (999 : Nat) = 999 :=
  ⟨by decide, rfl, claim_C3.2.1 999 999 (by decide) (by decide) rfl⟩

/-- C4: for every width, the inverse zigzag undoes the zigzag on every
two's-complement bit pattern (hence on every signed value, including
`iN::MIN`, pattern `2^(N-1)`, and `iN::MAX`, pattern `2^(N-1) - 1`), and
the zigzag is injective over the full range. -/
theorem claim_C4 :
    (∀ x, x < 256 → varuint_to_varint_8 (varint_to_varuint_8 x) = x) ∧
    (∀ x y, x < 256 → y < 256 →
       varint_to_varuint_8 x = varint_to_varuint_8 y → x = y) ∧
    (∀ x, x < 65536 → varuint_to_varint_16 (varint_to_varuint_16 x) = x) ∧
    (∀ x y, x < 65536 → y < 65536 →
       varint_to_varuint_16 x = varint_to_varuint_16 y → x = y) ∧
    (∀ x, x < 4294967296 →
       varuint_to_varint_32 (varint_to_varuint_32 x) = x) ∧
    (∀ x y, x < 4294967296 → y < 4294967296 →
       varint_to_varuint_32 x = varint_to_varuint_32 y → x = y) ∧
    (∀ x, x < 18446744073709551616 →
       varuint_to_varint_64 (varint_to_varuint_64 x) = x) ∧
    (∀ x y, x < 18446744073709551616 → y < 18446744073709551616 →
       varint_to_varuint_64 x = varint_to_varuint_64 y → x = y) ∧
    (∀ x, x < 340282366920938463463374607431768211456 →
       varuint_to_varint_128 (varint_to_varuint_128 x) = x) ∧
    (∀ x y, x < 340282366920938463463374607431768211456 →
       y < 340282366920938463463374607431768211456 →
       varint_to_varuint_128 x = varint_to_varuint_128 y → x = y) := by
  refine ⟨fun x hx => uzz_zz_8 x hx, fun x y hx hy hz => ?_,
    fun x hx => uzz_zz_16 x hx, fun x y hx hy hz => ?_,
    fun x hx => uzz_zz_32 x hx, fun x y hx hy hz => ?_,
    fun x hx => uzz_zz_64 x hx, fun x y hx hy hz => ?_,
    fun x hx => uzz_zz_128 x hx, fun x y hx hy hz => ?_⟩
  · rw [← uzz_zz_8 x hx, ← uzz_zz_8 y hy, hz]
  · rw [← uzz_zz_16 x hx, ← uzz_zz_16 y hy, hz]
  · rw [← uzz_zz_32 x hx, ← uzz_zz_32 y hy, hz]
  · rw [← uzz_zz_64 x hx, ← uzz_zz_64 y hy, hz]
  · rw [← uzz_zz_128 x hx, ← uzz_zz_128 y hy, hz]

/-- Witness for C4 at the i8 extremes (pattern 128 is `i8::MIN`, pattern 127
is `i8::MAX`) and the i128 minimum pattern. -/
theorem claim_C4_witness :
    varuint_to_varint_8 (varint_to_varuint_8 128) = 128 ∧
    varuint_to_varint_8 (varint_to_varuint_8 127) = 127 ∧
    varuint_to_varint_128
      (varint_to_varuint_128 170141183460469231731687303715884105728) =
      170141183460469231731687303715884105728 :=
  ⟨claim_C4.1 128 (by decide), claim_C4.1 127 (by decide),
   claim_C4.2.2.2.2.2.2.2.2.1 170141183460469231731687303715884105728
     (by decide)⟩

/-- C5: for every supported width and signedness, the length-class hint
equals the exact number of bytes the writer emits (the count `serialize`
returns is the length of the written byte list when the sink accepts all
offered bytes; the `Serializable` impls in ser_deser.rs delegate
`size_hint`/`serialize` directly to `varint_size`/`write_varint`). -/
theorem claim_C5 :
    (∀ v, v < 256 → (write_varint_u8 v).length = varint_size_u8 v) ∧
    (∀ v, v < 65536 → (write_varint_u16 v).length = varint_size_u16 v) ∧
    (∀ v, v < 4294967296 → (write_varint_u32 v).length = varint_size_u32 v) ∧
    (∀ v, v < 18446744073709551616 →
       (write_varint_u64 v).length = varint_size_u64 v) ∧
    (∀ v, v < 340282366920938463463374607431768211456 →
       (write_varint_u128 v).length = varint_size_u128 v) ∧
    (∀ x, x < 256 → (write_varint_i8 x).length = varint_size_i8 x) ∧
    (∀ x, x < 65536 → (write_varint_i16 x).length = varint_size_i16 x) ∧
    (∀ x, x < 4294967296 → (write_varint_i32 x).length = varint_size_i32 x) ∧
    (∀ x, x < 18446744073709551616 →
       (write_varint_i64 x).length = varint_size_i64 x) ∧
    (∀ x, x < 340282366920938463463374607431768211456 →
       (write_varint_i128 x).length = varint_size_i128 x) :=
  ⟨fun v hv => wlen_u8 v hv, fun v hv => wlen_u16 v hv,
   fun v hv => wlen_u32 v hv, fun v hv => wlen_u64 v hv,
   fun v hv => wlen_u128 v hv,
   fun x _ => wlen_u8 _ (zz_lt_8 x), fun x _ => wlen_u16 _ (zz_lt_16 x),
   fun x _ => wlen_u32 _ (zz_lt_32 x), fun x _ => wlen_u64 _ (zz_lt_64 x),
   fun x _ => wlen_u128 _ (zz_lt_128 x)⟩

/-- Witness for C5 at concrete values of several widths. -/
theorem claim_C5_witness :
    (write_varint_u8 250).length = varint_size_u8 250 ∧
    (write_varint_u16 2032).length = varint_size_u16 2032 ∧
    (write_varint_u128 340282366920938463463374607431768211455).length =
      varint_size_u128 340282366920938463463374607431768211455 ∧
    (write_varint_i8 128).length = varint_size_i8 128 :=
  ⟨claim_C5.1 250 (by decide), claim_C5.2.1 2032 (by decide),
   claim_C5.2.2.2.2.1 340282366920938463463374607431768211455 (by decide),
   claim_C5.2.2.2.2.2.1 128 (by decide)⟩

set_option maxHeartbeats 1600000 in
/-- C6: the u128 length-class calculator follows the threshold table with
first match winning, is total and deterministic (it is a function), and the
narrower-width calculators agree with it on their shared ranges. -/
theorem claim_C6 :
    (∀ v,
      (v ≤ 240 → varint_size_u128 v = 1) ∧
      (240 < v → v ≤ 2031 → varint_size_u128 v = 2) ∧
      (2031 < v → v ≤ 67567 → varint_size_u128 v = 3) ∧
      (67567 < v → v ≤ 16777215 → varint_size_u128 v = 4) ∧
      (16777215 < v → v ≤ 4294967295 → varint_size_u128 v = 5) ∧
      (4294967295 < v → v ≤ 1099511627775 → varint_size_u128 v = 6) ∧
      (1099511627775 < v → v ≤ 281474976710655 → varint_size_u128 v = 7) ∧
      (281474976710655 < v → v ≤ 72057594037927935 → varint_size_u128 v = 8) ∧
      (72057594037927935 < v → v ≤ 18446744073709551615 →
         varint_size_u128 v = 9) ∧
      (18446744073709551615 < v → v < 340282366920938463463374607431768211456 →
         varint_size_u128 v = 17)) ∧
    (∀ v, v < 256 → varint_size_u8 v = varint_size_u128 v) ∧
    (∀ v, v < 65536 → varint_size_u16 v = varint_size_u128 v) ∧
    (∀ v, v < 4294967296 → varint_size_u32 v = varint_size_u128 v) ∧
    (∀ v, v < 18446744073709551616 → varint_size_u64 v = varint_size_u128 v) := by
  refine ⟨fun v => ⟨?_, ?_, ?_, ?_, ?_, ?_, ?_, ?_, ?_, ?_⟩,
    fun v hv => agree_u8 v hv, fun v hv => agree_u16 v hv,
    fun v hv => agree_u32 v hv, fun v hv => agree_u64 v hv⟩
  all_goals intros
  all_goals unfold varint_size_u128
  all_goals split_ifs <;> omega

/-- Witness for C6 at concrete magnitudes in several classes. -/
theorem claim_C6_witness :
    varint_size_u128 240 = 1 ∧ varint_size_u128 2032 = 3 ∧
    varint_size_u128 18446744073709551616 = 17 ∧
    varint_size_u16 65535 = varint_size_u128 65535 :=
  ⟨(claim_C6.1 240).1 (by decide),
   (claim_C6.1 2032).2.2.1 (by decide) (by decide),
   (claim_C6.1 18446744073709551616).2.2.2.2.2.2.2.2.2 (by decide) (by decide),
   claim_C6.2.2.1 65535 (by decide)⟩

set_option maxHeartbeats 1600000 in
/-- C7: for 2032 ≤ m ≤ 67567 the u128 encoder emits exactly
`[248, (m-2032)/256, (m-2032) mod 256]` (big-endian payload pair), the
decoder reconstructs class 3 as `2032 + 256*b1 + b2`, and every class ≥ 4
emits its prefix byte followed by the low bytes of the magnitude in
little-endian order (`write_value`, whose bytes are `v / 256^i % 256`). -/
theorem claim_C7 :
    (∀ v, 2032 ≤ v → v ≤ 67567 →
       write_varint_u128 v = [248, (v - 2032) / 256, (v - 2032) % 256]) ∧
    (∀ b1 b2 rest, b1 < 256 → b2 < 256 →
       read_varint_u128 (248 :: b1 :: b2 :: rest) =
         RRes.ok (2032 + 256 * b1 + b2) rest) ∧
    (∀ len v, write_value len v =
       (List.range len).map (fun i => v / 256 ^ i % 256)) ∧
    (∀ v, 67568 ≤ v → v ≤ 16777215 →
       write_varint_u128 v = 249 :: write_value 3 v) ∧
    (∀ v, 16777216 ≤ v → v ≤ 4294967295 →
       write_varint_u128 v = 250 :: write_value 4 v) ∧
    (∀ v, 4294967296 ≤ v → v ≤ 1099511627775 →
       write_varint_u128 v = 251 :: write_value 5 v) ∧
    (∀ v, 1099511627776 ≤ v → v ≤ 281474976710655 →
       write_varint_u128 v = 252 :: write_value 6 v) ∧
    (∀ v, 281474976710656 ≤ v → v ≤ 72057594037927935 →
       write_varint_u128 v = 253 :: write_value 7 v) ∧
    (∀ v, 72057594037927936 ≤ v → v ≤ 18446744073709551615 →
       write_varint_u128 v = 254 :: write_value 8 v) ∧
    (∀ v, 18446744073709551616 ≤ v →
       v < 340282366920938463463374607431768211456 →
       write_varint_u128 v = 255 :: write_value 16 v) := by
  refine ⟨fun v h1 h2 => ?_, fun b1 b2 rest hb1 hb2 => ?_, fun len v => ?_,
    fun v h1 h2 => ?_, fun v h1 h2 => ?_, fun v h1 h2 => ?_, fun v h1 h2 => ?_,
    fun v h1 h2 => ?_, fun v h1 h2 => ?_, fun v h1 h2 => ?_⟩
  · have hsize : varint_size_u128 v = 3 := by
      unfold varint_size_u128
      split_ifs <;> omega
    have hq : (v - 2032) / 256 % 256 = (v - 2032) / 256 := by omega
    simp [write_varint_u128, hsize, hq]
  · simp [read_varint_u128]
    exact congrArg (fun t => RRes.ok t rest) (by omega)
  · unfold write_value
    have hf : (fun i => (v >>> (8 * i)) % 256) =
        fun i => v / 256 ^ i % 256 := by
      funext i
      rw [Nat.shiftRight_eq_div_pow, pow_mul]
      norm_num
    rw [hf]
  · have hsize : varint_size_u128 v = 4 := by
      unfold varint_size_u128
      split_ifs <;> omega
    simp [write_varint_u128, hsize]
  · have hsize : varint_size_u128 v = 5 := by
      unfold varint_size_u128
      split_ifs <;> omega
    simp [write_varint_u128, hsize]
  · have hsize : varint_size_u128 v = 6 := by
      unfold varint_size_u128
      split_ifs <;> omega
    simp [write_varint_u128, hsize]
  · have hsize : varint_size_u128 v = 7 := by
      unfold varint_size_u128
      split_ifs <;> omega
    simp [write_varint_u128, hsize]
  · have hsize : varint_size_u128 v = 8 := by
      unfold varint_size_u128
      split_ifs <;> omega
    simp [write_varint_u128, hsize]
  · have hsize : varint_size_u128 v = 9 := by
      unfold varint_size_u128
      split_ifs <;> omega
    simp [write_varint_u128, hsize]
  · have hsize : varint_size_u128 v = 17 := by
      unfold varint_size_u128
      split_ifs <;> omega
    simp [write_varint_u128, hsize]

/-- Witness for C7 at concrete inputs. -/
theorem claim_C7_witness :
    write_varint_u128 2500 = [248, 1, 212] ∧
    read_varint_u128 [248, 1, 212, 5] = RRes.ok 2500 [5] ∧
    write_value 2 5000 = [136, 19] ∧
    write_varint_u128 100000 = 249 :: write_value 3 100000 :=
  ⟨by
     have h := claim_C7.1 2500 (by decide) (by decide)
     rw [h],
   by
     have h := claim_C7.2.1 1 212 [5] (by decide) (by decide)
     rw [h],
   by
     have h := claim_C7.2.2.1 2 5000
     rw [h]
     decide,
   claim_C7.2.2.2.1 100000 (by decide) (by decide)⟩

/-- C8: length classing is monotone at every supported width: a smaller
magnitude never needs more bytes. -/
theorem claim_C8 :
    (∀ a b, a < 256 → b < 256 → a < b →
       varint_size_u8 a ≤ varint_size_u8 b) ∧
    (∀ a b, a < 65536 → b < 65536 → a < b →
       varint_size_u16 a ≤ varint_size_u16 b) ∧
    (∀ a b, a < 4294967296 → b < 4294967296 → a < b →
       varint_size_u32 a ≤ varint_size_u32 b) ∧
    (∀ a b, a < 18446744073709551616 → b < 18446744073709551616 → a < b →
       varint_size_u64 a ≤ varint_size_u64 b) ∧
    (∀ a b, a < 340282366920938463463374607431768211456 →
       b < 340282366920938463463374607431768211456 → a < b →
       varint_size_u128 a ≤ varint_size_u128 b) :=
  ⟨fun a b _ _ h => mono_u8 a b (by omega),
   fun a b _ _ h => mono_u16 a b (by omega),
   fun a b _ _ h => mono_u32 a b (by omega),
   fun a b _ _ h => mono_u64 a b (by omega),
   fun a b _ _ h => mono_u128 a b (by omega)⟩

/-- Witness for C8 across a class boundary. -/
theorem claim_C8_witness :
    varint_size_u128 240 ≤ varint_size_u128 241 ∧
    varint_size_u8 17 ≤ varint_size_u8 255 :=
  ⟨claim_C8.2.2.2.2 240 241 (by decide) (by decide) (by decide),
   claim_C8.1 17 255 (by decide) (by decide) (by decide)⟩

/-- C9: for any prefix byte in 241..=247 the u8 reader consumes exactly one
payload byte and returns `240 + b1` in 8-bit arithmetic regardless of which
prefix it was; on writer-produced input the prefix is always 241, the
payload is at most 15, the addition does not overflow, and the
`unreachable!()` branch is never taken; on unconstrained input the addition
wraps (mod 256; debug Rust would panic) and distinct prefixes decode
alike. -/
theorem claim_C9 :
    (∀ p b rest, 241 ≤ p → p ≤ 247 → b < 256 →
       read_varint_u8 (p :: b :: rest) = RRes.ok ((240 + b) % 256) rest) ∧
    (∀ v, 241 ≤ v → v < 256 →
       write_varint_u8 v = [241, v - 240] ∧ v - 240 ≤ 15) ∧
    (∀ v rest, v < 256 →
       read_varint_u8 (write_varint_u8 v ++ rest) = RRes.ok v rest) ∧
    read_varint_u8 [241, 200] = RRes.ok 184 [] ∧
    read_varint_u8 [243, 5] = read_varint_u8 [241, 5] := by
  refine ⟨fun p b rest h1 h2 hb => ?_, fun v h1 h2 => ?_,
    fun v rest hv => rt_u8 v hv rest, by decide, by decide⟩
  · have hc1 : ¬ p ≤ 240 := by omega
    simp [read_varint_u8, hc1, h2]
  · have hsize : varint_size_u8 v = 2 := by
      unfold varint_size_u8
      split_ifs <;> omega
    exact ⟨by simp [write_varint_u8, hsize], by omega⟩

/-- Witness for C9 at concrete bytes. -/
theorem claim_C9_witness :
    read_varint_u8 [245, 13] = RRes.ok 253 [] ∧
    write_varint_u8 249 = [241, 9] ∧
    read_varint_u8 (write_varint_u8 249 ++ []) = RRes.ok 249 [] :=
  ⟨by
     have h := claim_C9.1 245 13 [] (by decide) (by decide) (by decide)
     rw [h],
   (claim_C9.2.1 249 (by decide) (by decide)).1,
   claim_C9.2.2.1 249 [] (by decide)⟩

/-- C10: the legacy 128-bit implementation in varuint.rs and the trait-based
u128 implementation in read_write.rs are extensionally equal: same size
hint, same serialized bytes (hence the same returned count), and the same
decode result or error on every input stream. -/
theorem claim_C10 :
    (∀ v, Varuint_size_hint v = varint_size_u128 v) ∧
    (∀ v, Varuint_serialize_buf v = write_varint_u128 v) ∧
    (∀ v, (Varuint_serialize_buf v).length = (write_varint_u128 v).length) ∧
    (∀ input, Varuint_deserialize input = read_varint_u128 input) :=
  ⟨fun v => Varuint_size_hint_eq v,
   fun v => Varuint_serialize_buf_eq v,
   fun v => by rw [Varuint_serialize_buf_eq],
   fun input => Varuint_deserialize_eq input⟩
